import Mathlib

/-!
A shallow embedding of the `maproxy` TCP reverse proxy (file `maproxy.py`).

The heart of the program is the `Session` class: a per-connection state
machine with two endpoints, C2P (client↔proxy, handed over already
connected) and P2S (proxy↔server, dialled asynchronously).  Each endpoint
carries a connection state (`CLOSED`/`CONNECTING`/`CONNECTED`), `reading`
and `writing` flags and a write queue whose items are either byte chunks or
`None`, the graceful close-sentinel.

Embedding conventions:
* Byte chunks are `List Nat`; a queue item (`WItem`) is `Option Chunk`
  with `none` playing the role of Python's `None` close-sentinel.
* Each Session method becomes a function `SessionState → ... →
  Option (SessionState × List Act)`.  The `List Act` is the trace of
  operations issued on the two underlying tornado streams (writes, closes,
  read starts).  A `none` result models a failed Python `assert`
  (`AssertionError` aborts the callback).
* Every stream call that can raise `tornado.iostream.StreamClosedError`
  synchronously takes an explicit `err : Bool` oracle: `err = true` means
  that call raised and the corresponding `except` clause ran.
* `remove_session` is modelled as a counter bump guarded by
  `ProxyServer.remove_session`'s own assertions (both endpoints CLOSED).
* The event loop is modelled by `step`/`run`: a Session is driven purely by
  its completion callbacks, which are exactly the `Ev` constructors.

`ProxyServer` option normalisation, `IOManager.add` and `IOManager.stop`
are embedded separately below (Python float times become `ℚ`; the
truthiness tests `not gracefully` / `if deadline` are modelled exactly).
-/

namespace Maproxy

/-- A byte chunk delivered by a stream read (`bytes` in Python). -/
abbrev Chunk := List Nat

/-- A write-queue item: a chunk, or `none` — Python's `None` close-sentinel. -/
abbrev WItem := Option Chunk

/-- Embeds `Session.State`: `CLOSED,CONNECTING,CONNECTED=range(3)`. -/
inductive ConnState where
  | CLOSED
  | CONNECTING
  | CONNECTED
deriving DecidableEq, Repr

/-- Operations issued on the two tornado streams, in issue order. -/
inductive Act where
  | c2pWrite (data : Chunk)
  | c2pCloseStream
  | c2pReadStart
  | p2sWrite (data : Chunk)
  | p2sCloseStream
  | p2sReadStart
  | p2sConnect
deriving DecidableEq, Repr

/-- The mutable state of a `Session` object (the fields set in `__init__`).
`removed` counts the calls made to `ProxyServer.remove_session`. -/
structure SessionState where
  c2p_reading : Bool
  c2p_writing : Bool
  p2s_writing : Bool
  p2s_reading : Bool
  c2p_state : ConnState
  p2s_state : ConnState
  c2s_queued_data : List WItem
  s2c_queued_data : List WItem
  removed : Nat
deriving DecidableEq, Repr

/-- Embeds `ProxyServer.remove_session(self,session)`: asserts both endpoint states
are CLOSED, then drops the session from the listener's list (modelled as a
counter bump on the session). -/
def Session.remove_session (s : SessionState) : Option SessionState :=
  if s.p2s_state = ConnState.CLOSED ∧ s.c2p_state = ConnState.CLOSED then
    some { s with removed := s.removed + 1 }
  else
    none

/-- Embeds `Session._c2p_io_write(self,data)`.  `err` is true iff the stream call
inside the `try` raised `StreamClosedError`. -/
def Session.c2p_io_write (s : SessionState) (data : WItem) (err : Bool) :
    SessionState × List Act :=
  match data with
  | none =>
      -- None means (gracefully) close-socket
      let s1 := { s with c2p_state := ConnState.CLOSED }
      if err then ({ s1 with c2p_writing := false }, [])
      else (s1, [Act.c2pCloseStream])
  | some d =>
      let s1 := { s with c2p_writing := true }
      if err then ({ s1 with c2p_writing := false }, [])
      else (s1, [Act.c2pWrite d])

/-- Embeds `Session._p2s_io_write(self,data)`. -/
def Session.p2s_io_write (s : SessionState) (data : WItem) (err : Bool) :
    SessionState × List Act :=
  match data with
  | none =>
      let s1 := { s with p2s_state := ConnState.CLOSED }
      if err then ({ s1 with p2s_writing := false }, [])
      else (s1, [Act.p2sCloseStream])
  | some d =>
      let s1 := { s with p2s_writing := true }
      if err then ({ s1 with p2s_writing := false }, [])
      else (s1, [Act.p2sWrite d])

/-- Embeds `Session.c2p_start_write(self,data)`: write to the client; if a write is
pending, append to the S→C queue.  Note the `assert(not
self.s2c_queued_data)` in the not-writing branch. -/
def Session.c2p_start_write (s : SessionState) (data : WItem) (err : Bool) :
    Option (SessionState × List Act) :=
  if s.c2p_state ≠ ConnState.CONNECTED then
    some (s, [])
  else if s.c2p_writing = false then
    if s.s2c_queued_data = [] then
      some (Session.c2p_io_write s data err)
    else
      none   -- assert( not self.s2c_queued_data ) fails
  else
    some ({ s with s2c_queued_data := s.s2c_queued_data ++ [data] }, [])

/-- Embeds `Session.p2s_start_write(self,data)`: if still CONNECTING, queue the
data; if CLOSED, discard; otherwise write or queue.  Unlike
`c2p_start_write`, the not-writing branch performs the low-level write with
no queue-empty assertion (the code relies on this in
`on_p2s_done_connect`). -/
def Session.p2s_start_write (s : SessionState) (data : WItem) (err : Bool) :
    Option (SessionState × List Act) :=
  if s.p2s_state = ConnState.CONNECTING then
    some ({ s with c2s_queued_data := s.c2s_queued_data ++ [data] }, [])
  else if s.p2s_state = ConnState.CLOSED then
    some (s, [])
  else if s.p2s_state = ConnState.CONNECTED then
    if s.p2s_writing = false then
      some (Session.p2s_io_write s data err)
    else
      some ({ s with c2s_queued_data := s.c2s_queued_data ++ [data] }, [])
  else
    none   -- assert(self.p2s_state == Session.State.CONNECTED) fails

/-- Embeds `Session.on_c2p_done_write(self)`: asserts `c2p_writing`; if the S→C
queue is non-empty, pop the head and low-level-write it, else clear the
flag. -/
def Session.on_c2p_done_write (s : SessionState) (err : Bool) :
    Option (SessionState × List Act) :=
  if s.c2p_writing = false then
    none   -- assert(self.c2p_writing) fails
  else
    match s.s2c_queued_data with
    | d :: rest => some (Session.c2p_io_write { s with s2c_queued_data := rest } d err)
    | [] => some ({ s with c2p_writing := false }, [])

/-- Embeds `Session.on_p2s_done_write(self)`. -/
def Session.on_p2s_done_write (s : SessionState) (err : Bool) :
    Option (SessionState × List Act) :=
  if s.p2s_writing = false then
    none   -- assert(self.p2s_writing) fails
  else
    match s.c2s_queued_data with
    | d :: rest => some (Session.p2s_io_write { s with c2s_queued_data := rest } d err)
    | [] => some ({ s with p2s_writing := false }, [])

/-- Embeds `Session.c2p_start_read(self)`: asserts not already reading, sets the
flag, starts `read_until_close`; on synchronous `StreamClosedError`
(`err = true`) the flag is cleared. -/
def Session.c2p_start_read (s : SessionState) (err : Bool) :
    Option (SessionState × List Act) :=
  if s.c2p_reading = true then
    none   -- assert( not self.c2p_reading) fails
  else
    let s1 := { s with c2p_reading := true }
    if err then some ({ s1 with c2p_reading := false }, [])
    else some (s1, [Act.c2pReadStart])

/-- Embeds `Session.p2s_start_read(self)`. -/
def Session.p2s_start_read (s : SessionState) (err : Bool) :
    Option (SessionState × List Act) :=
  if s.p2s_reading = true then
    none   -- assert( not self.p2s_reading) fails
  else
    let s1 := { s with p2s_reading := true }
    if err then some ({ s1 with p2s_reading := false }, [])
    else some (s1, [Act.p2sReadStart])

/-- Embeds `Session.on_c2p_done_read(self,data)`: asserts reading and non-empty
data, then forwards the chunk via `p2s_start_write`.  `werr` is the error
oracle for the write that may be issued. -/
def Session.on_c2p_done_read (s : SessionState) (data : Chunk) (werr : Bool) :
    Option (SessionState × List Act) :=
  if s.c2p_reading = false then
    none   -- assert(self.c2p_reading) fails
  else if data = [] then
    none   -- assert(data) fails
  else
    Session.p2s_start_write s (some data) werr

/-- Embeds `Session.on_p2s_done_read(self,data)`. -/
def Session.on_p2s_done_read (s : SessionState) (data : Chunk) (werr : Bool) :
    Option (SessionState × List Act) :=
  if s.p2s_reading = false then
    none   -- assert( self.p2s_reading) fails
  else if data = [] then
    none   -- assert(data) fails
  else
    Session.c2p_start_write s (some data) werr

/-- Embeds `Session.c2p_start_close(self,gracefully=True)`: graceful close writes
the `None` sentinel through `c2p_start_write`; the brutal branch closes
immediately, resets the queue and may remove the session. -/
def Session.c2p_start_close (s : SessionState) (gracefully : Bool) (err : Bool) :
    Option (SessionState × List Act) :=
  if s.c2p_state = ConnState.CLOSED then
    some (s, [])
  else if gracefully then
    Session.c2p_start_write s none err
  else
    let s1 := { s with c2p_state := ConnState.CLOSED, s2c_queued_data := ([] : List WItem) }
    if s1.p2s_state = ConnState.CLOSED then
      (Session.remove_session s1).map (fun s2 => (s2, [Act.c2pCloseStream]))
    else
      some (s1, [Act.c2pCloseStream])

/-- Embeds `Session.p2s_start_close(self,gracefully=True)`. -/
def Session.p2s_start_close (s : SessionState) (gracefully : Bool) (err : Bool) :
    Option (SessionState × List Act) :=
  if s.p2s_state = ConnState.CLOSED then
    some (s, [])
  else if gracefully then
    Session.p2s_start_write s none err
  else
    let s1 := { s with p2s_state := ConnState.CLOSED, c2s_queued_data := ([] : List WItem) }
    if s1.c2p_state = ConnState.CLOSED then
      (Session.remove_session s1).map (fun s2 => (s2, [Act.p2sCloseStream]))
    else
      some (s1, [Act.p2sCloseStream])

/-- Embeds `Session.on_c2p_close(self)`: mark C2P closed; if P2S is already
closed, remove the session, else propagate a graceful close to P2S. -/
def Session.on_c2p_close (s : SessionState) (err : Bool) :
    Option (SessionState × List Act) :=
  let s1 := { s with c2p_state := ConnState.CLOSED }
  if s1.p2s_state = ConnState.CLOSED then
    (Session.remove_session s1).map (fun s2 => (s2, []))
  else
    Session.p2s_start_close s1 true err

/-- Embeds `Session.on_p2s_close(self)`. -/
def Session.on_p2s_close (s : SessionState) (err : Bool) :
    Option (SessionState × List Act) :=
  let s1 := { s with p2s_state := ConnState.CLOSED }
  if s1.c2p_state = ConnState.CLOSED then
    (Session.remove_session s1).map (fun s2 => (s2, []))
  else
    Session.c2p_start_close s1 true err

/-- Embeds `Session.on_p2s_done_connect(self)`: assert CONNECTING, mark CONNECTED,
start reading from the server, assert no write in flight, then, if the C→S
queue is non-empty, pop the head and hand it to `p2s_start_write` (the
"TRICKY" drain step of the source). -/
def Session.on_p2s_done_connect (s : SessionState) (rerr werr : Bool) :
    Option (SessionState × List Act) :=
  if s.p2s_state ≠ ConnState.CONNECTING then
    none   -- assert(self.p2s_state==Session.State.CONNECTING) fails
  else
    match Session.p2s_start_read { s with p2s_state := ConnState.CONNECTED } rerr with
    | none => none
    | some (s2, acts1) =>
        if s2.p2s_writing = true then
          none   -- assert(not self.p2s_writing) fails
        else
          match s2.c2s_queued_data with
          | [] => some (s2, acts1)
          | d :: rest =>
              match Session.p2s_start_write { s2 with c2s_queued_data := rest } d werr with
              | none => none
              | some (s3, acts2) => some (s3, acts1 ++ acts2)

/-- The completion callbacks that drive a `Session` (its public contract).
Each carries the error oracles for the stream calls its handler may make. -/
inductive Ev where
  | c2pDoneRead (data : Chunk) (werr : Bool)
  | p2sDoneRead (data : Chunk) (werr : Bool)
  | c2pDoneWrite (werr : Bool)
  | p2sDoneWrite (werr : Bool)
  | p2sDoneConnect (rerr werr : Bool)
  | c2pClose (werr : Bool)
  | p2sClose (werr : Bool)
deriving DecidableEq, Repr

/-- Dispatch one completion callback. -/
def step (s : SessionState) : Ev → Option (SessionState × List Act)
  | Ev.c2pDoneRead d werr => Session.on_c2p_done_read s d werr
  | Ev.p2sDoneRead d werr => Session.on_p2s_done_read s d werr
  | Ev.c2pDoneWrite werr => Session.on_c2p_done_write s werr
  | Ev.p2sDoneWrite werr => Session.on_p2s_done_write s werr
  | Ev.p2sDoneConnect rerr werr => Session.on_p2s_done_connect s rerr werr
  | Ev.c2pClose werr => Session.on_c2p_close s werr
  | Ev.p2sClose werr => Session.on_p2s_close s werr

/-- Run a sequence of completion callbacks, accumulating the stream trace.
A failed assertion anywhere aborts the run (`none`). -/
def run (s : SessionState) : List Ev → Option (SessionState × List Act)
  | [] => some (s, [])
  | e :: es =>
      match step s e with
      | none => none
      | some (s1, tr1) =>
          match run s1 es with
          | none => none
          | some (s2, tr2) => some (s2, tr1 ++ tr2)

/-- The Session state right after `Session.__init__` ran with a successful
initial `c2p_start_read`: C2P CONNECTED and being read, P2S CONNECTING,
both queues empty, no writes in flight. -/
def sessionInitState : SessionState :=
  { c2p_reading := true
    c2p_writing := false
    p2s_writing := false
    p2s_reading := false
    c2p_state := ConnState.CONNECTED
    p2s_state := ConnState.CONNECTING
    c2s_queued_data := []
    s2c_queued_data := []
    removed := 0 }

/-- Embeds `Session.__init__` (state-machine part): set up the fields, register the
close callbacks, start the dial, and start reading from the client.
`rerr` is the error oracle of that first `c2p_start_read`. -/
def session_init (rerr : Bool) : Option (SessionState × List Act) :=
  let s : SessionState :=
    { c2p_reading := false
      c2p_writing := false
      p2s_writing := false
      p2s_reading := false
      c2p_state := ConnState.CONNECTED
      p2s_state := ConnState.CONNECTING
      c2s_queued_data := []
      s2c_queued_data := []
      removed := 0 }
  match Session.c2p_start_read s rerr with
  | none => none
  | some (s1, acts) => some (s1, Act.p2sConnect :: acts)

/-- Projection of a stream trace to the chunks written to the server. -/
def p2sWrites (tr : List Act) : List Chunk :=
  tr.filterMap (fun a => match a with | Act.p2sWrite d => some d | _ => none)

/-- The chunks the client delivered, in arrival order (the payloads of the
`c2pDoneRead` events of a run). -/
def clientChunks (es : List Ev) : List Chunk :=
  es.filterMap (fun e => match e with | Ev.c2pDoneRead d _ => some d | _ => none)

/-- Embeds `ProxyServer.remove_session` seen from the listener: assert both
endpoint states CLOSED, then `self.SessionsList.remove(session)` (removal
of the first occurrence, by identity). -/
def ProxyServer.remove_session_list (l : List Nat) (sid : Nat)
    (c2p p2s : ConnState) : Option (List Nat) :=
  if p2s = ConnState.CLOSED ∧ c2p = ConnState.CLOSED then
    some (l.erase sid)
  else
    none

/-- The Python value space of the `server_ssl_options` argument:
`True`, `False`, `None`, or a tornado SSL-options dictionary. -/
inductive PyVal where
  | pyTrue
  | pyFalse
  | pyNone
  | dict (entries : List (String × String))
deriving DecidableEq, Repr

/-- The normalisation in `ProxyServer.__init__`:
`if self.server_ssl_options is True: self.server_ssl_options={}` then
`if self.server_ssl_options is False: self.server_ssl_options=None`. -/
def ProxyServer.normalize_server_ssl (v : PyVal) : PyVal :=
  let v1 := if v = PyVal.pyTrue then PyVal.dict [] else v
  if v1 = PyVal.pyFalse then PyVal.pyNone else v1

/-- Which kind of outbound stream `Session.__init__` constructs. -/
inductive StreamKind where
  | ssl
  | plain
deriving DecidableEq, Repr

/-- Embeds `Session.__init__`: `if self.proxy.server_ssl_options is not None:`
build an `SSLIOStream`, `else` a plain `IOStream`. -/
def Session.p2s_stream_kind (server_ssl_options : PyVal) : StreamKind :=
  if server_ssl_options ≠ PyVal.pyNone then StreamKind.ssl else StreamKind.plain

/-- A tornado `TCPServer` object, reduced to its identity (`id(server)`). -/
structure TCPServerObj where
  oid : Nat
deriving DecidableEq, Repr

/-- Embeds `IOManager.add(self,server)`: assert
`self._servers.get(id(server)) is None , "Already Exists"`, then store
`self._servers[id(server)]=server` and return `id(server)`. -/
def IOManager.add (servers : List (Nat × TCPServerObj)) (server : TCPServerObj) :
    Option (List (Nat × TCPServerObj) × Nat) :=
  if (servers.lookup server.oid).isSome then
    none   -- assert fails: "Already Exists"
  else
    some (servers ++ [(server.oid, server)], server.oid)

/-- The `gracefully` argument of `IOManager.stop`: `True`, `False`, or a
number of seconds (Python int/float, embedded as `ℚ`). -/
inductive Graceful where
  | b (v : Bool)
  | num (t : ℚ)
deriving DecidableEq, Repr

/-- Python truthiness of the `gracefully` argument (`if not gracefully`):
`False` and the number `0` are falsy. -/
def Graceful.truthy : Graceful → Bool
  | Graceful.b v => v
  | Graceful.num t => decide (t ≠ 0)

/-- Python truthiness of the `deadline` argument of
`stop_if_no_connections` (`if ... deadline and ...`): `None` and the float
`0.0` are falsy. -/
def deadlineTruthy : Option ℚ → Bool
  | none => false
  | some d => decide (d ≠ 0)

/-- Embeds the test `deadline-current_time<=0` of `stop_if_no_connections` (false when
there is no deadline: Python short-circuits on `deadline and ...`). -/
def deadlineElapsed : Option ℚ → ℚ → Bool
  | none, _ => false
  | some d, now => decide (d - now ≤ 0)

/-- One invocation of the inner `stop_if_no_connections(deadline)` of
`IOManager.stop`, at clock time `now`, where `cnt` gives the live
connection count as a function of time.  Result `none` means
`stop_procedure()` ran (the IO loop is stopped); `some t` means the next
check was scheduled at absolute time `t`. -/
def IOManager.stop_if_no_connections (cnt : ℚ → ℕ) (deadline : Option ℚ)
    (now : ℚ) : Option ℚ :=
  if cnt now = 0 ∨ (deadlineTruthy deadline = true ∧ deadlineElapsed deadline now = true) then
    none
  else
    some (match deadline with
          | none => now + 1
          | some d => min (now + 1) d)

/-- The outcome of the body of `IOManager.stop` (the single-threaded path):
the servers after `server.stop()` ran on each, whether `stop_procedure()`
was invoked immediately, and the deadline passed to
`stop_if_no_connections` when a delayed check was scheduled instead.
Servers are modelled as their listening flags. -/
def IOManager.stop (servers : List Bool) (g : Graceful) (cnt0 : ℕ)
    (now : ℚ) : List Bool × Bool × Option (Option ℚ) :=
  let servers1 := servers.map (fun _ => false)
  if g.truthy = false ∨ cnt0 = 0 then
    (servers1, true, none)
  else
    match g with
    | Graceful.b _ => (servers1, false, some none)           -- wait forever
    | Graceful.num t => (servers1, false, some (some (now + t)))

/-- Recogniser of the `on_c2p_close` callback among events. -/
def isC2pClose : Ev → Bool
  | Ev.c2pClose _ => true
  | _ => false

/-- Recogniser of the `on_p2s_close` callback among events. -/
def isP2sClose : Ev → Bool
  | Ev.p2sClose _ => true
  | _ => false

/-- Events of an error-free open-connection run toward the server: client
chunk deliveries, P2S write completions and the P2S connect completion,
all with no synchronous stream errors. -/
def c1ev : Ev → Bool
  | Ev.c2pDoneRead _ werr => !werr
  | Ev.p2sDoneWrite werr => !werr
  | Ev.p2sDoneConnect rerr werr => !rerr && !werr
  | _ => false

/-- Data-flow invariant of the C→S direction: the C→S queue holds exactly
the chunks `pending` not yet written (no sentinel), the P2S endpoint is
live, no write is in flight while CONNECTING, and an idle CONNECTED
endpoint has an empty queue. -/
def C1Inv (s : SessionState) (pending : List Chunk) : Prop :=
  s.c2s_queued_data = pending.map some ∧
  s.p2s_state ≠ ConnState.CLOSED ∧
  (s.p2s_state = ConnState.CONNECTING → s.p2s_writing = false) ∧
  (s.p2s_state = ConnState.CONNECTED → s.p2s_writing = false → pending = [])

/-- Close/removal invariant: `cSeen`/`pSeen` record whether `on_c2p_close`
resp. `on_p2s_close` has already fired.  `remove_session` has run exactly
once iff both have; an endpoint is CLOSED only after some close callback;
a sentinel sits in a queue only after the opposite side's close callback. -/
def SeenInv (s : SessionState) (cSeen pSeen : Bool) : Prop :=
  s.removed = (if cSeen && pSeen then 1 else 0) ∧
  (cSeen = true → s.c2p_state = ConnState.CLOSED) ∧
  (pSeen = true → s.p2s_state = ConnState.CLOSED) ∧
  (s.c2p_state = ConnState.CLOSED → cSeen = true ∨ pSeen = true) ∧
  (s.p2s_state = ConnState.CLOSED → cSeen = true ∨ pSeen = true) ∧
  (none ∈ s.s2c_queued_data → pSeen = true) ∧
  (none ∈ s.c2s_queued_data → cSeen = true)

/-- A session mid-flight: a write to the client is pending and the S→C
queue holds the close-sentinel (the state right after the upstream closed
while a client-bound write was in progress). -/
def c2State : SessionState :=
  { c2p_reading := true
    c2p_writing := true
    p2s_writing := false
    p2s_reading := true
    c2p_state := ConnState.CONNECTED
    p2s_state := ConnState.CONNECTED
    c2s_queued_data := []
    s2c_queued_data := [none]
    removed := 0 }

/-- A session whose P2S endpoint is CONNECTED and idle while the C→S queue
is non-empty (exactly the shape `on_p2s_done_connect` creates when it pops
the queue head). -/
def c3State : SessionState :=
  { c2p_reading := true
    c2p_writing := false
    p2s_writing := false
    p2s_reading := true
    c2p_state := ConnState.CONNECTED
    p2s_state := ConnState.CONNECTED
    c2s_queued_data := [some [1]]
    s2c_queued_data := []
    removed := 0 }

/-- Concrete event sequence for the connect-window ordering property: two
chunks arrive while P2S is still CONNECTING, the dial completes, the two
queued writes complete, and a third chunk arrives afterwards. -/
def c1Es : List Ev :=
  [Ev.c2pDoneRead [1] false, Ev.c2pDoneRead [2] false,
   Ev.p2sDoneConnect false false, Ev.p2sDoneWrite false, Ev.p2sDoneWrite false,
   Ev.c2pDoneRead [3] false]

/-- The state `c1Es` drives the fresh session into. -/
def c1Final : SessionState :=
  { c2p_reading := true
    c2p_writing := false
    p2s_writing := true
    p2s_reading := true
    c2p_state := ConnState.CONNECTED
    p2s_state := ConnState.CONNECTED
    c2s_queued_data := []
    s2c_queued_data := []
    removed := 0 }

/-- The stream trace `c1Es` produces. -/
def c1Tr : List Act :=
  [Act.p2sReadStart, Act.p2sWrite [1], Act.p2sWrite [2], Act.p2sWrite [3]]

/-- Concrete event sequence for session removal: the upstream dial fails
(P2S closes first), then the client close callback fires. -/
def c4Es : List Ev := [Ev.p2sClose false, Ev.c2pClose false]

/-- The state `c4Es` drives the fresh session into. -/
def c4Final : SessionState :=
  { c2p_reading := true
    c2p_writing := false
    p2s_writing := false
    p2s_reading := false
    c2p_state := ConnState.CLOSED
    p2s_state := ConnState.CLOSED
    c2s_queued_data := []
    s2c_queued_data := []
    removed := 1 }

/-! ## Theorems -/

/-- C8: `ProxyServer.__init__` normalises `server_ssl_options=True` to the
empty options dictionary and `False` to `None`; and `Session.__init__`
constructs the outbound stream as an `SSLIOStream` exactly when the
normalised `server_ssl_options` is not `None`, and as a plain `IOStream`
otherwise. -/
theorem c8_ssl_normalization :
    ProxyServer.normalize_server_ssl PyVal.pyTrue = PyVal.dict [] ∧
    ProxyServer.normalize_server_ssl PyVal.pyFalse = PyVal.pyNone ∧
    ∀ v : PyVal,
      Session.p2s_stream_kind (ProxyServer.normalize_server_ssl v) = StreamKind.ssl ↔
        ProxyServer.normalize_server_ssl v ≠ PyVal.pyNone := by
  refine ⟨rfl, rfl, ?_⟩
  intro v
  unfold Session.p2s_stream_kind
  split_ifs with h <;> simp_all

/-- Witness for C8 at a concrete SSL-options dictionary. -/
theorem c8_ssl_normalization_witness :
    Session.p2s_stream_kind (ProxyServer.normalize_server_ssl (PyVal.dict [])) =
      StreamKind.ssl :=
  (c8_ssl_normalization.2.2 (PyVal.dict [])).mpr (by decide)

/-- Looking up a key in a dictionary to which it was just appended
succeeds. -/
theorem lookup_append_key (m : List (Nat × TCPServerObj)) (k : Nat) (v : TCPServerObj) :
    ((m ++ [(k, v)]).lookup k).isSome = true := by
  induction m with
  | nil => simp [List.lookup]
  | cons p m ih =>
      obtain ⟨a, b⟩ := p
      by_cases hk : k = a
      · subst hk
        simp [List.lookup]
      · have hb : (k == a) = false := beq_eq_false_iff_ne.mpr hk
        simp [List.lookup, hb, ih]

/-- C9: `IOManager.add(server)` registers the server under `id(server)` and
returns that identity as the handle; a second `add` of the same object hits
the `"Already Exists"` assertion instead of registering it twice or
overwriting the entry. -/
theorem c9_add_identity :
    (∀ (m : List (Nat × TCPServerObj)) (srv : TCPServerObj),
        (m.lookup srv.oid).isSome = false →
        IOManager.add m srv = some (m ++ [(srv.oid, srv)], srv.oid)) ∧
    (∀ (m m' : List (Nat × TCPServerObj)) (srv : TCPServerObj) (h : Nat),
        IOManager.add m srv = some (m', h) → IOManager.add m' srv = none) := by
  constructor
  · intro m srv hfree
    unfold IOManager.add
    simp [hfree]
  · intro m m' srv h hadd
    unfold IOManager.add at hadd
    by_cases hfree : (List.lookup srv.oid m).isSome = true
    · rw [if_pos hfree] at hadd
      cases hadd
    · rw [if_neg hfree] at hadd
      have hm' : m ++ [(srv.oid, srv)] = m' := by
        have h2 := congrArg (fun o => Option.map Prod.fst o) hadd
        simpa using h2
      subst hm'
      unfold IOManager.add
      simp [lookup_append_key]

/-- Witness for C9: adding a fresh server succeeds with its id as handle;
adding the same object again fails the assertion. -/
theorem c9_add_identity_witness :
    IOManager.add [] ⟨5⟩ = some ([(5, ⟨5⟩)], 5) ∧
    IOManager.add [(5, ⟨5⟩)] ⟨5⟩ = none :=
  ⟨c9_add_identity.1 [] ⟨5⟩ (by decide),
   c9_add_identity.2 [] [(5, ⟨5⟩)] ⟨5⟩ 5 (c9_add_identity.1 [] ⟨5⟩ (by decide))⟩

/-- C6: a synchronous `StreamClosedError` (`err = true`) at read initiation
or at a low-level chunk write is swallowed — the handler returns normally
(`some`, no exception escapes the Session), the corresponding in-flight
flag ends up cleared, and no stream operation is recorded (teardown is left
to the later peer-closed callback). -/
theorem c6_stream_closed_swallowed :
    (∀ s : SessionState, s.c2p_reading = false →
        Session.c2p_start_read s true = some (s, [])) ∧
    (∀ s : SessionState, s.p2s_reading = false →
        Session.p2s_start_read s true = some (s, [])) ∧
    (∀ (s : SessionState) (d : Chunk),
        Session.c2p_io_write s (some d) true = ({ s with c2p_writing := false }, [])) ∧
    (∀ (s : SessionState) (d : Chunk),
        Session.p2s_io_write s (some d) true = ({ s with p2s_writing := false }, [])) := by
  refine ⟨?_, ?_, fun s d => rfl, fun s d => rfl⟩
  · intro s h
    obtain ⟨r1, w1, w2, r2, cs, ps, q1, q2, rm⟩ := s
    simp only at h
    subst h
    simp [Session.c2p_start_read]
  · intro s h
    obtain ⟨r1, w1, w2, r2, cs, ps, q1, q2, rm⟩ := s
    simp only at h
    subst h
    simp [Session.p2s_start_read]

/-- Witness for C6 at the freshly constructed session (whose P2S endpoint
is not yet reading): the failed read initiation is absorbed. -/
theorem c6_stream_closed_swallowed_witness :
    Session.p2s_start_read sessionInitState true = some (sessionInitState, []) :=
  c6_stream_closed_swallowed.2.1 sessionInitState rfl

/-- C2 counterexample: start from `c2State` (a pending client write with
the close-sentinel queued behind it) and let the write completion fire.
`on_c2p_done_write` dequeues the sentinel and `_c2p_io_write` processes
it: `c2p_state` becomes CLOSED and the stream close is requested, but the
`c2p_writing` flag remains `true` — the code clears it only inside the
`except StreamClosedError` branch, so the claim's "clears that endpoint's
writing flag" is false on the normal path. -/
theorem c2_counterexample :
    (Session.on_c2p_done_write c2State false).map
        (fun p => (p.1.c2p_state, p.1.c2p_writing, p.2)) =
      some (ConnState.CLOSED, true, [Act.c2pCloseStream]) := by decide

/-- C2 amended: processing the close-sentinel sets `conn_state` to CLOSED
and requests the stream close; the `writing` flag is cleared only when the
close itself raises `StreamClosedError` — on the normal path it keeps its
previous value.  A sentinel dequeued by `on_*_done_write` is handed to the
low-level write with the queue head removed. -/
theorem c2_amended_sentinel_close :
    (∀ s : SessionState,
        (Session.c2p_io_write s none false).1.c2p_state = ConnState.CLOSED ∧
        (Session.c2p_io_write s none false).2 = [Act.c2pCloseStream] ∧
        (Session.c2p_io_write s none false).1.c2p_writing = s.c2p_writing ∧
        (Session.c2p_io_write s none true).1.c2p_state = ConnState.CLOSED ∧
        (Session.c2p_io_write s none true).1.c2p_writing = false ∧
        (Session.c2p_io_write s none true).2 = []) ∧
    (∀ s : SessionState,
        (Session.p2s_io_write s none false).1.p2s_state = ConnState.CLOSED ∧
        (Session.p2s_io_write s none false).2 = [Act.p2sCloseStream] ∧
        (Session.p2s_io_write s none false).1.p2s_writing = s.p2s_writing ∧
        (Session.p2s_io_write s none true).1.p2s_state = ConnState.CLOSED ∧
        (Session.p2s_io_write s none true).1.p2s_writing = false ∧
        (Session.p2s_io_write s none true).2 = []) ∧
    (∀ (s : SessionState) (q : List WItem),
        s.c2p_writing = true → s.s2c_queued_data = none :: q →
        Session.on_c2p_done_write s false =
          some (Session.c2p_io_write { s with s2c_queued_data := q } none false)) ∧
    (∀ (s : SessionState) (q : List WItem),
        s.p2s_writing = true → s.c2s_queued_data = none :: q →
        Session.on_p2s_done_write s false =
          some (Session.p2s_io_write { s with c2s_queued_data := q } none false)) := by
  refine ⟨fun s => ⟨rfl, rfl, rfl, rfl, rfl, rfl⟩,
          fun s => ⟨rfl, rfl, rfl, rfl, rfl, rfl⟩, ?_, ?_⟩
  · intro s q hw hq
    simp [Session.on_c2p_done_write, hw, hq]
  · intro s q hw hq
    simp [Session.on_p2s_done_write, hw, hq]

/-- Witness for C2 (amended) at `c2State`. -/
theorem c2_amended_sentinel_close_witness :
    Session.on_c2p_done_write c2State false =
      some (Session.c2p_io_write { c2State with s2c_queued_data := [] } none false) :=
  c2_amended_sentinel_close.2.2.1 c2State [] rfl rfl

/-- C3 counterexample: `p2s_start_write` on a CONNECTED, non-writing P2S
endpoint with a non-empty C→S queue does NOT fail an assertion — it
proceeds straight to the low-level write of its argument.  The queue-empty
assertion of I2 exists only in `c2p_start_write`; the claim's "present on
both endpoints" is false. -/
theorem c3_counterexample :
    c3State.p2s_state = ConnState.CONNECTED ∧
    c3State.p2s_writing = false ∧
    c3State.c2s_queued_data ≠ [] ∧
    Session.p2s_start_write c3State (some [2]) false =
      some ({ c3State with p2s_writing := true }, [Act.p2sWrite [2]]) := by decide

/-- C3 amended: only `c2p_start_write` carries the queue-empty assertion in
its CONNECTED-and-idle branch; `p2s_start_write` invokes the low-level
write unconditionally there (deliberately, so that `on_p2s_done_connect`
can push the popped queue head through it while the rest of the queue is
still non-empty). -/
theorem c3_amended_assertion_asymmetry :
    (∀ (s : SessionState) (it : WItem) (e : Bool),
        s.c2p_state = ConnState.CONNECTED → s.c2p_writing = false →
        s.s2c_queued_data ≠ [] →
        Session.c2p_start_write s it e = none) ∧
    (∀ (s : SessionState) (it : WItem) (e : Bool),
        s.c2p_state = ConnState.CONNECTED → s.c2p_writing = false →
        s.s2c_queued_data = [] →
        Session.c2p_start_write s it e = some (Session.c2p_io_write s it e)) ∧
    (∀ (s : SessionState) (it : WItem) (e : Bool),
        s.p2s_state = ConnState.CONNECTED → s.p2s_writing = false →
        Session.p2s_start_write s it e = some (Session.p2s_io_write s it e)) := by
  refine ⟨?_, ?_, ?_⟩
  · intro s it e h1 h2 h3
    simp [Session.c2p_start_write, h1, h2, h3]
  · intro s it e h1 h2 h3
    simp [Session.c2p_start_write, h1, h2, h3]
  · intro s it e h1 h2
    simp [Session.p2s_start_write, h1, h2]

/-- Witness for C3 (amended) at `c3State`. -/
theorem c3_amended_assertion_asymmetry_witness :
    Session.p2s_start_write c3State (some [2]) false =
      some (Session.p2s_io_write c3State (some [2]) false) :=
  c3_amended_assertion_asymmetry.2.2 c3State (some [2]) false rfl rfl

/-- C5: if the P2S close callback fires while P2S is still CONNECTING (the
upstream dial failed before `on_p2s_done_connect` ever ran), `on_p2s_close`
sets `p2s_state` directly to CLOSED and gracefully closes the C2P endpoint
through the close-sentinel: the client stream close is requested, both
endpoints end CLOSED, the handler returns normally (no error escapes the
Session), and afterwards any write destined for the upstream is discarded
by `p2s_start_write`'s CLOSED branch. -/
theorem c5_dial_failure (s : SessionState)
    (hconn : s.p2s_state = ConnState.CONNECTING)
    (hc2p : s.c2p_state = ConnState.CONNECTED)
    (hw : s.c2p_writing = false)
    (hq : s.s2c_queued_data = []) :
    Session.on_p2s_close s false =
      some ({ s with p2s_state := ConnState.CLOSED, c2p_state := ConnState.CLOSED },
            [Act.c2pCloseStream]) ∧
    (∀ (d : WItem) (e : Bool),
        Session.p2s_start_write
            { s with p2s_state := ConnState.CLOSED, c2p_state := ConnState.CLOSED } d e =
          some ({ s with p2s_state := ConnState.CLOSED, c2p_state := ConnState.CLOSED }, [])) ∧
    ({ s with p2s_state := ConnState.CLOSED, c2p_state := ConnState.CLOSED } : SessionState).removed = s.removed := by
  obtain ⟨r1, w1, w2, r2, cs, ps, q1, q2, rm⟩ := s
  simp only at hconn hc2p hw hq
  subst hconn hc2p hw hq
  refine ⟨?_, ?_, rfl⟩
  · simp [Session.on_p2s_close, Session.c2p_start_close, Session.c2p_start_write,
      Session.c2p_io_write]
  · intro d e
    simp [Session.p2s_start_write]

/-- Witness for C5 at the freshly constructed session. -/
theorem c5_dial_failure_witness :
    Session.on_p2s_close sessionInitState false =
      some ({ sessionInitState with p2s_state := ConnState.CLOSED, c2p_state := ConnState.CLOSED },
            [Act.c2pCloseStream]) :=
  (c5_dial_failure sessionInitState rfl rfl rfl rfl).1

/-- C7 counterexample: `stop(gracefully=0)` with one live connection stops
the loop at once (Python's `if not gracefully` treats the number 0 as
falsy), although `gracefully` is neither the Boolean `False` nor is the
connection count zero — so "at once if and only if gracefully is false or
the count is zero" fails as stated. -/
theorem c7_counterexample :
    (IOManager.stop [true] (Graceful.num 0) 5 0).2.1 = true ∧
    Graceful.num 0 ≠ Graceful.b false ∧ (5 : ℕ) ≠ 0 := by decide

/-- C7 amended: `IOManager.stop` stops every registered server first; it
stops the IO loop at once iff `gracefully` is falsy (the Boolean `False`
or the number 0) or the live count is zero; otherwise it schedules
`stop_if_no_connections` with no deadline for `gracefully=True` (wait
forever) and deadline `now + gracefully` for a numeric argument.  Each
check stops the loop exactly when the count is zero or a (truthy) deadline
has elapsed, and otherwise re-schedules itself at most one second later. -/
theorem c7_amended_stop :
    (∀ (servers : List Bool) (g : Graceful) (cnt : ℕ) (t : ℚ),
        (IOManager.stop servers g cnt t).1 = servers.map (fun _ => false)) ∧
    (∀ (servers : List Bool) (g : Graceful) (cnt : ℕ) (t : ℚ),
        (IOManager.stop servers g cnt t).2.1 = true ↔
          (g.truthy = false ∨ cnt = 0)) ∧
    (∀ (servers : List Bool) (cnt : ℕ) (t : ℚ), cnt ≠ 0 →
        (IOManager.stop servers (Graceful.b true) cnt t).2.2 = some none) ∧
    (∀ (servers : List Bool) (q : ℚ) (cnt : ℕ) (t : ℚ), q ≠ 0 → cnt ≠ 0 →
        (IOManager.stop servers (Graceful.num q) cnt t).2.2 = some (some (t + q))) ∧
    (∀ (cnt : ℚ → ℕ) (dl : Option ℚ) (t : ℚ),
        IOManager.stop_if_no_connections cnt dl t = none ↔
          (cnt t = 0 ∨ (deadlineTruthy dl = true ∧ deadlineElapsed dl t = true))) ∧
    (∀ (cnt : ℚ → ℕ) (dl : Option ℚ) (t t' : ℚ),
        IOManager.stop_if_no_connections cnt dl t = some t' → t' ≤ t + 1) ∧
    (∀ (cnt : ℚ → ℕ) (t : ℚ),
        IOManager.stop_if_no_connections cnt none t = none ↔ cnt t = 0) := by
  refine ⟨?_, ?_, ?_, ?_, ?_, ?_, ?_⟩
  · intro servers g cnt t
    unfold IOManager.stop
    split_ifs
    · rfl
    · cases g <;> rfl
  · intro servers g cnt t
    unfold IOManager.stop
    split_ifs with h
    · simp [h]
    · cases g <;> simp_all
  · intro servers cnt t hcnt
    unfold IOManager.stop
    simp [Graceful.truthy, hcnt]
  · intro servers q cnt t hq hcnt
    unfold IOManager.stop
    simp [Graceful.truthy, hq, hcnt]
  · intro cnt dl t
    unfold IOManager.stop_if_no_connections
    split_ifs with h <;> simp [h]
  · intro cnt dl t t' h
    unfold IOManager.stop_if_no_connections at h
    split_ifs at h
    cases h
    rcases dl with _ | d
    · exact le_refl _
    · exact min_le_left _ _
  · intro cnt t
    unfold IOManager.stop_if_no_connections
    split_ifs with h <;> simp [deadlineTruthy] at h <;> simp [h]

/-- Witness for C7 (amended): a 2-second graceful stop with 3 live
connections schedules a deadline 2 seconds out, and a later check with the
count at zero stops the loop. -/
theorem c7_amended_stop_witness :
    (IOManager.stop [true] (Graceful.num 2) 3 10).2.2 = some (some (10 + 2)) ∧
    IOManager.stop_if_no_connections (fun _ => 0) (some 12) 10 = none :=
  ⟨c7_amended_stop.2.2.2.1 [true] 2 3 10 (by decide) (by decide),
   (c7_amended_stop.2.2.2.2.1 (fun _ => 0) (some 12) 10).mpr (Or.inl rfl)⟩

/-- The four evaluation equations of `_c2p_io_write`. -/
theorem c2p_io_write_none_err (s : SessionState) :
    Session.c2p_io_write s none true =
      ({ s with c2p_state := ConnState.CLOSED, c2p_writing := false }, []) := rfl

theorem c2p_io_write_none_ok (s : SessionState) :
    Session.c2p_io_write s none false =
      ({ s with c2p_state := ConnState.CLOSED }, [Act.c2pCloseStream]) := rfl

theorem c2p_io_write_some_err (s : SessionState) (d : Chunk) :
    Session.c2p_io_write s (some d) true = ({ s with c2p_writing := false }, []) := rfl

theorem c2p_io_write_some_ok (s : SessionState) (d : Chunk) :
    Session.c2p_io_write s (some d) false =
      ({ s with c2p_writing := true }, [Act.c2pWrite d]) := rfl

/-- The four evaluation equations of `_p2s_io_write`. -/
theorem p2s_io_write_none_err (s : SessionState) :
    Session.p2s_io_write s none true =
      ({ s with p2s_state := ConnState.CLOSED, p2s_writing := false }, []) := rfl

theorem p2s_io_write_none_ok (s : SessionState) :
    Session.p2s_io_write s none false =
      ({ s with p2s_state := ConnState.CLOSED }, [Act.p2sCloseStream]) := rfl

theorem p2s_io_write_some_err (s : SessionState) (d : Chunk) :
    Session.p2s_io_write s (some d) true = ({ s with p2s_writing := false }, []) := rfl

theorem p2s_io_write_some_ok (s : SessionState) (d : Chunk) :
    Session.p2s_io_write s (some d) false =
      ({ s with p2s_writing := true }, [Act.p2sWrite d]) := rfl

/-- Case analysis of a successful `p2s_start_write`. -/
theorem p2s_start_write_spec (s : SessionState) (d : WItem) (e : Bool)
    (s' : SessionState) (tr : List Act)
    (h : Session.p2s_start_write s d e = some (s', tr)) :
    (s.p2s_state = ConnState.CONNECTING ∧
       s' = { s with c2s_queued_data := s.c2s_queued_data ++ [d] } ∧ tr = []) ∨
    (s.p2s_state = ConnState.CLOSED ∧ s' = s ∧ tr = []) ∨
    (s.p2s_state = ConnState.CONNECTED ∧ s.p2s_writing = false ∧
       (s', tr) = Session.p2s_io_write s d e) ∨
    (s.p2s_state = ConnState.CONNECTED ∧ s.p2s_writing = true ∧
       s' = { s with c2s_queued_data := s.c2s_queued_data ++ [d] } ∧ tr = []) := by
  unfold Session.p2s_start_write at h
  by_cases h1 : s.p2s_state = ConnState.CONNECTING
  · rw [if_pos h1] at h
    injection h with h5
    rw [Prod.mk.injEq] at h5
    exact Or.inl ⟨h1, h5.1.symm, h5.2.symm⟩
  · rw [if_neg h1] at h
    by_cases h2 : s.p2s_state = ConnState.CLOSED
    · rw [if_pos h2] at h
      injection h with h5
      rw [Prod.mk.injEq] at h5
      exact Or.inr (Or.inl ⟨h2, h5.1.symm, h5.2.symm⟩)
    · rw [if_neg h2] at h
      by_cases h3 : s.p2s_state = ConnState.CONNECTED
      · rw [if_pos h3] at h
        by_cases h4 : s.p2s_writing = false
        · rw [if_pos h4] at h
          injection h with h5
          exact Or.inr (Or.inr (Or.inl ⟨h3, h4, h5.symm⟩))
        · rw [if_neg h4] at h
          injection h with h5
          rw [Prod.mk.injEq] at h5
          refine Or.inr (Or.inr (Or.inr ⟨h3, ?_, h5.1.symm, h5.2.symm⟩))
          cases hb : s.p2s_writing
          · exact absurd hb h4
          · rfl
      · rw [if_neg h3] at h
        cases h

/-- Case analysis of a successful `c2p_start_write`. -/
theorem c2p_start_write_spec (s : SessionState) (d : WItem) (e : Bool)
    (s' : SessionState) (tr : List Act)
    (h : Session.c2p_start_write s d e = some (s', tr)) :
    (s.c2p_state ≠ ConnState.CONNECTED ∧ s' = s ∧ tr = []) ∨
    (s.c2p_state = ConnState.CONNECTED ∧ s.c2p_writing = false ∧
       s.s2c_queued_data = [] ∧ (s', tr) = Session.c2p_io_write s d e) ∨
    (s.c2p_state = ConnState.CONNECTED ∧ s.c2p_writing = true ∧
       s' = { s with s2c_queued_data := s.s2c_queued_data ++ [d] } ∧ tr = []) := by
  unfold Session.c2p_start_write at h
  by_cases h1 : s.c2p_state ≠ ConnState.CONNECTED
  · rw [if_pos h1] at h
    injection h with h5
    rw [Prod.mk.injEq] at h5
    exact Or.inl ⟨h1, h5.1.symm, h5.2.symm⟩
  · rw [if_neg h1] at h
    push_neg at h1
    by_cases h2 : s.c2p_writing = false
    · rw [if_pos h2] at h
      by_cases h3 : s.s2c_queued_data = []
      · rw [if_pos h3] at h
        injection h with h5
        exact Or.inr (Or.inl ⟨h1, h2, h3, h5.symm⟩)
      · rw [if_neg h3] at h
        cases h
    · rw [if_neg h2] at h
      injection h with h5
      rw [Prod.mk.injEq] at h5
      refine Or.inr (Or.inr ⟨h1, ?_, h5.1.symm, h5.2.symm⟩)
      cases hb : s.c2p_writing
      · exact absurd hb h2
      · rfl

/-- Case analysis of a successful `on_p2s_done_write`. -/
theorem on_p2s_done_write_spec (s : SessionState) (e : Bool)
    (s' : SessionState) (tr : List Act)
    (h : Session.on_p2s_done_write s e = some (s', tr)) :
    s.p2s_writing = true ∧
    ((s.c2s_queued_data = [] ∧ s' = { s with p2s_writing := false } ∧ tr = []) ∨
     (∃ d rest, s.c2s_queued_data = d :: rest ∧
        (s', tr) = Session.p2s_io_write { s with c2s_queued_data := rest } d e)) := by
  unfold Session.on_p2s_done_write at h
  by_cases h1 : s.p2s_writing = false
  · rw [if_pos h1] at h
    cases h
  · rw [if_neg h1] at h
    have h1' : s.p2s_writing = true := by
      cases hb : s.p2s_writing
      · exact absurd hb h1
      · rfl
    refine ⟨h1', ?_⟩
    rcases hq : s.c2s_queued_data with _ | ⟨d, rest⟩
    · rw [hq] at h
      injection h with h5
      rw [Prod.mk.injEq] at h5
      exact Or.inl ⟨rfl, h5.1.symm, h5.2.symm⟩
    · rw [hq] at h
      injection h with h5
      exact Or.inr ⟨d, rest, rfl, h5.symm⟩

/-- Case analysis of a successful `on_c2p_done_write`. -/
theorem on_c2p_done_write_spec (s : SessionState) (e : Bool)
    (s' : SessionState) (tr : List Act)
    (h : Session.on_c2p_done_write s e = some (s', tr)) :
    s.c2p_writing = true ∧
    ((s.s2c_queued_data = [] ∧ s' = { s with c2p_writing := false } ∧ tr = []) ∨
     (∃ d rest, s.s2c_queued_data = d :: rest ∧
        (s', tr) = Session.c2p_io_write { s with s2c_queued_data := rest } d e)) := by
  unfold Session.on_c2p_done_write at h
  by_cases h1 : s.c2p_writing = false
  · rw [if_pos h1] at h
    cases h
  · rw [if_neg h1] at h
    have h1' : s.c2p_writing = true := by
      cases hb : s.c2p_writing
      · exact absurd hb h1
      · rfl
    refine ⟨h1', ?_⟩
    rcases hq : s.s2c_queued_data with _ | ⟨d, rest⟩
    · rw [hq] at h
      injection h with h5
      rw [Prod.mk.injEq] at h5
      exact Or.inl ⟨rfl, h5.1.symm, h5.2.symm⟩
    · rw [hq] at h
      injection h with h5
      exact Or.inr ⟨d, rest, rfl, h5.symm⟩

/-- Guards of a successful `on_c2p_done_read`: it is exactly a
`p2s_start_write` of the chunk. -/
theorem on_c2p_done_read_spec (s : SessionState) (data : Chunk) (e : Bool)
    (s' : SessionState) (tr : List Act)
    (h : Session.on_c2p_done_read s data e = some (s', tr)) :
    s.c2p_reading = true ∧ data ≠ [] ∧
    Session.p2s_start_write s (some data) e = some (s', tr) := by
  unfold Session.on_c2p_done_read at h
  by_cases h1 : s.c2p_reading = false
  · rw [if_pos h1] at h
    cases h
  · rw [if_neg h1] at h
    by_cases h2 : data = []
    · rw [if_pos h2] at h
      cases h
    · rw [if_neg h2] at h
      refine ⟨?_, h2, h⟩
      cases hb : s.c2p_reading
      · exact absurd hb h1
      · rfl

/-- Guards of a successful `on_p2s_done_read`. -/
theorem on_p2s_done_read_spec (s : SessionState) (data : Chunk) (e : Bool)
    (s' : SessionState) (tr : List Act)
    (h : Session.on_p2s_done_read s data e = some (s', tr)) :
    s.p2s_reading = true ∧ data ≠ [] ∧
    Session.c2p_start_write s (some data) e = some (s', tr) := by
  unfold Session.on_p2s_done_read at h
  by_cases h1 : s.p2s_reading = false
  · rw [if_pos h1] at h
    cases h
  · rw [if_neg h1] at h
    by_cases h2 : data = []
    · rw [if_pos h2] at h
      cases h
    · rw [if_neg h2] at h
      refine ⟨?_, h2, h⟩
      cases hb : s.p2s_reading
      · exact absurd hb h1
      · rfl

/-- Case analysis of a successful `c2p_start_read`. -/
theorem c2p_start_read_spec (s : SessionState) (e : Bool)
    (s' : SessionState) (tr : List Act)
    (h : Session.c2p_start_read s e = some (s', tr)) :
    s.c2p_reading = false ∧
    ((e = true ∧ s' = { s with c2p_reading := false } ∧ tr = []) ∨
     (e = false ∧ s' = { s with c2p_reading := true } ∧ tr = [Act.c2pReadStart])) := by
  unfold Session.c2p_start_read at h
  by_cases h1 : s.c2p_reading = true
  · rw [if_pos h1] at h
    cases h
  · rw [if_neg h1] at h
    have h1' : s.c2p_reading = false := by
      cases hb : s.c2p_reading
      · rfl
      · exact absurd hb h1
    refine ⟨h1', ?_⟩
    cases e
    · rw [if_neg (by simp)] at h
      injection h with h5
      rw [Prod.mk.injEq] at h5
      exact Or.inr ⟨rfl, h5.1.symm, h5.2.symm⟩
    · rw [if_pos rfl] at h
      injection h with h5
      rw [Prod.mk.injEq] at h5
      exact Or.inl ⟨rfl, h5.1.symm, h5.2.symm⟩

/-- Case analysis of a successful `p2s_start_read`. -/
theorem p2s_start_read_spec (s : SessionState) (e : Bool)
    (s' : SessionState) (tr : List Act)
    (h : Session.p2s_start_read s e = some (s', tr)) :
    s.p2s_reading = false ∧
    ((e = true ∧ s' = { s with p2s_reading := false } ∧ tr = []) ∨
     (e = false ∧ s' = { s with p2s_reading := true } ∧ tr = [Act.p2sReadStart])) := by
  unfold Session.p2s_start_read at h
  by_cases h1 : s.p2s_reading = true
  · rw [if_pos h1] at h
    cases h
  · rw [if_neg h1] at h
    have h1' : s.p2s_reading = false := by
      cases hb : s.p2s_reading
      · rfl
      · exact absurd hb h1
    refine ⟨h1', ?_⟩
    cases e
    · rw [if_neg (by simp)] at h
      injection h with h5
      rw [Prod.mk.injEq] at h5
      exact Or.inr ⟨rfl, h5.1.symm, h5.2.symm⟩
    · rw [if_pos rfl] at h
      injection h with h5
      rw [Prod.mk.injEq] at h5
      exact Or.inl ⟨rfl, h5.1.symm, h5.2.symm⟩

/-- Case analysis of a successful `on_c2p_close`. -/
theorem on_c2p_close_spec (s : SessionState) (e : Bool)
    (s' : SessionState) (tr : List Act)
    (h : Session.on_c2p_close s e = some (s', tr)) :
    (s.p2s_state = ConnState.CLOSED ∧
       s' = { s with c2p_state := ConnState.CLOSED, removed := s.removed + 1 } ∧ tr = []) ∨
    (s.p2s_state ≠ ConnState.CLOSED ∧
       Session.p2s_start_write { s with c2p_state := ConnState.CLOSED } none e =
         some (s', tr)) := by
  unfold Session.on_c2p_close at h
  by_cases h1 : s.p2s_state = ConnState.CLOSED
  · rw [if_pos h1] at h
    unfold Session.remove_session at h
    rw [if_pos ⟨h1, rfl⟩] at h
    injection h with h5
    rw [Prod.mk.injEq] at h5
    exact Or.inl ⟨h1, h5.1.symm, h5.2.symm⟩
  · rw [if_neg h1] at h
    unfold Session.p2s_start_close at h
    rw [if_neg h1, if_pos rfl] at h
    exact Or.inr ⟨h1, h⟩

/-- Case analysis of a successful `on_p2s_close`. -/
theorem on_p2s_close_spec (s : SessionState) (e : Bool)
    (s' : SessionState) (tr : List Act)
    (h : Session.on_p2s_close s e = some (s', tr)) :
    (s.c2p_state = ConnState.CLOSED ∧
       s' = { s with p2s_state := ConnState.CLOSED, removed := s.removed + 1 } ∧ tr = []) ∨
    (s.c2p_state ≠ ConnState.CLOSED ∧
       Session.c2p_start_write { s with p2s_state := ConnState.CLOSED } none e =
         some (s', tr)) := by
  unfold Session.on_p2s_close at h
  by_cases h1 : s.c2p_state = ConnState.CLOSED
  · rw [if_pos h1] at h
    unfold Session.remove_session at h
    rw [if_pos ⟨rfl, h1⟩] at h
    injection h with h5
    rw [Prod.mk.injEq] at h5
    exact Or.inl ⟨h1, h5.1.symm, h5.2.symm⟩
  · rw [if_neg h1] at h
    unfold Session.c2p_start_close at h
    rw [if_neg h1, if_pos rfl] at h
    exact Or.inr ⟨h1, h⟩

/-- Case analysis of a successful `on_p2s_done_connect`. -/
theorem on_p2s_done_connect_spec (s : SessionState) (rerr werr : Bool)
    (s' : SessionState) (tr : List Act)
    (h : Session.on_p2s_done_connect s rerr werr = some (s', tr)) :
    s.p2s_state = ConnState.CONNECTING ∧ s.p2s_reading = false ∧
    s.p2s_writing = false ∧
    ∃ s2 tr1,
      ((rerr = true ∧
          s2 = { s with p2s_state := ConnState.CONNECTED, p2s_reading := false } ∧
          tr1 = []) ∨
       (rerr = false ∧
          s2 = { s with p2s_state := ConnState.CONNECTED, p2s_reading := true } ∧
          tr1 = [Act.p2sReadStart])) ∧
      ((s.c2s_queued_data = [] ∧ s' = s2 ∧ tr = tr1) ∨
       (∃ d rest, s.c2s_queued_data = d :: rest ∧
          ∃ tr2, Session.p2s_start_write { s2 with c2s_queued_data := rest } d werr =
              some (s', tr2) ∧ tr = tr1 ++ tr2)) := by
  unfold Session.on_p2s_done_connect at h
  by_cases h1 : s.p2s_state ≠ ConnState.CONNECTING
  · rw [if_pos h1] at h
    cases h
  · rw [if_neg h1] at h
    push_neg at h1
    rcases hread : Session.p2s_start_read { s with p2s_state := ConnState.CONNECTED } rerr with
      _ | ⟨s2, tr1⟩
    · rw [hread] at h
      cases h
    · rw [hread] at h
      dsimp only at h
      obtain ⟨hr0, hcases⟩ := p2s_start_read_spec _ _ _ _ hread
      simp only at hr0
      by_cases hw : s2.p2s_writing = true
      · rw [if_pos hw] at h
        cases h
      · rw [if_neg hw] at h
        have hw2 : s2.p2s_writing = s.p2s_writing := by
          rcases hcases with ⟨_, hs2, _⟩ | ⟨_, hs2, _⟩ <;> rw [hs2]
        have hwF : s.p2s_writing = false := by
          rw [← hw2]
          cases hb : s2.p2s_writing
          · rfl
          · exact absurd hb hw
        refine ⟨h1, hr0, hwF, s2, tr1, ?_, ?_⟩
        · rcases hcases with ⟨he, hs2, ht1⟩ | ⟨he, hs2, ht1⟩
          · exact Or.inl ⟨he, hs2, ht1⟩
          · exact Or.inr ⟨he, hs2, ht1⟩
        · have hq2 : s2.c2s_queued_data = s.c2s_queued_data := by
            rcases hcases with ⟨_, hs2, _⟩ | ⟨_, hs2, _⟩ <;> rw [hs2]
          rcases hq : s2.c2s_queued_data with _ | ⟨d, rest⟩
          · rw [hq] at h
            injection h with h5
            rw [Prod.mk.injEq] at h5
            exact Or.inl ⟨by rw [← hq2, hq], h5.1.symm, h5.2.symm⟩
          · rw [hq] at h
            dsimp only at h
            rcases hsw : Session.p2s_start_write { s2 with c2s_queued_data := rest } d werr with
              _ | ⟨s3, tr2⟩
            · rw [hsw] at h
              cases h
            · rw [hsw] at h
              injection h with h5
              rw [Prod.mk.injEq] at h5
              refine Or.inr ⟨d, rest, by rw [← hq2, hq], tr2, ?_, h5.2.symm⟩
              rw [h5.1] at hsw
              exact hsw



/-- Lemma: `_c2p_io_write` never touches the reading flags. -/
theorem c2p_io_write_readings (s : SessionState) (d : WItem) (e : Bool)
    (s' : SessionState) (tr : List Act)
    (h : (s', tr) = Session.c2p_io_write s d e) :
    s'.c2p_reading = s.c2p_reading ∧ s'.p2s_reading = s.p2s_reading := by
  rcases d with _ | d <;> cases e <;>
    (first
      | rw [c2p_io_write_none_ok] at h
      | rw [c2p_io_write_none_err] at h
      | rw [c2p_io_write_some_ok] at h
      | rw [c2p_io_write_some_err] at h)
  all_goals
    rw [Prod.mk.injEq] at h
    exact ⟨by rw [h.1], by rw [h.1]⟩

/-- Lemma: `_p2s_io_write` never touches the reading flags. -/
theorem p2s_io_write_readings (s : SessionState) (d : WItem) (e : Bool)
    (s' : SessionState) (tr : List Act)
    (h : (s', tr) = Session.p2s_io_write s d e) :
    s'.c2p_reading = s.c2p_reading ∧ s'.p2s_reading = s.p2s_reading := by
  rcases d with _ | d <;> cases e <;>
    (first
      | rw [p2s_io_write_none_ok] at h
      | rw [p2s_io_write_none_err] at h
      | rw [p2s_io_write_some_ok] at h
      | rw [p2s_io_write_some_err] at h)
  all_goals
    rw [Prod.mk.injEq] at h
    exact ⟨by rw [h.1], by rw [h.1]⟩

/-- Lemma: `p2s_start_write` never touches the reading flags. -/
theorem p2s_start_write_readings (s : SessionState) (d : WItem) (e : Bool)
    (s' : SessionState) (tr : List Act)
    (h : Session.p2s_start_write s d e = some (s', tr)) :
    s'.c2p_reading = s.c2p_reading ∧ s'.p2s_reading = s.p2s_reading := by
  rcases p2s_start_write_spec _ _ _ _ _ h with
    ⟨-, hs', -⟩ | ⟨-, hs', -⟩ | ⟨-, -, hpair⟩ | ⟨-, -, hs', -⟩
  · subst hs'; exact ⟨rfl, rfl⟩
  · subst hs'; exact ⟨rfl, rfl⟩
  · exact p2s_io_write_readings _ _ _ _ _ hpair
  · subst hs'; exact ⟨rfl, rfl⟩

/-- Lemma: `c2p_start_write` never touches the reading flags. -/
theorem c2p_start_write_readings (s : SessionState) (d : WItem) (e : Bool)
    (s' : SessionState) (tr : List Act)
    (h : Session.c2p_start_write s d e = some (s', tr)) :
    s'.c2p_reading = s.c2p_reading ∧ s'.p2s_reading = s.p2s_reading := by
  rcases c2p_start_write_spec _ _ _ _ _ h with
    ⟨-, hs', -⟩ | ⟨-, -, -, hpair⟩ | ⟨-, -, hs', -⟩
  · subst hs'; exact ⟨rfl, rfl⟩
  · exact c2p_io_write_readings _ _ _ _ _ hpair
  · subst hs'; exact ⟨rfl, rfl⟩

/-- C10: a continuous read can be initiated at most once per endpoint.  A
second `c2p_start_read`/`p2s_start_read` against an endpoint whose
`reading` flag is already set fails its `assert( not ... reading)`; and no
completion callback ever clears a reading flag once set (in particular the
close callbacks do not), so across any event the flags are monotone.  In
the embedding, `c2p_start_read` is reachable only from `session_init` and
`p2s_start_read` only from inside `on_p2s_done_connect`, mirroring the
call sites in the source. -/
theorem c10_read_initiated_once :
    (∀ (s : SessionState) (e : Bool), s.c2p_reading = true →
        Session.c2p_start_read s e = none) ∧
    (∀ (s : SessionState) (e : Bool), s.p2s_reading = true →
        Session.p2s_start_read s e = none) ∧
    (∀ (s : SessionState) (e : Ev) (s' : SessionState) (tr : List Act),
        step s e = some (s', tr) →
        (s.c2p_reading = true → s'.c2p_reading = true) ∧
        (s.p2s_reading = true → s'.p2s_reading = true)) := by
  refine ⟨?_, ?_, ?_⟩
  · intro s e h
    unfold Session.c2p_start_read
    rw [if_pos h]
  · intro s e h
    unfold Session.p2s_start_read
    rw [if_pos h]
  · intro s e s' tr h
    cases e with
    | c2pDoneRead data werr =>
        obtain ⟨-, -, hsw⟩ := on_c2p_done_read_spec _ _ _ _ _ h
        have h2 := p2s_start_write_readings _ _ _ _ _ hsw
        exact ⟨fun hx => by rw [h2.1]; exact hx, fun hx => by rw [h2.2]; exact hx⟩
    | p2sDoneRead data werr =>
        obtain ⟨-, -, hsw⟩ := on_p2s_done_read_spec _ _ _ _ _ h
        have h2 := c2p_start_write_readings _ _ _ _ _ hsw
        exact ⟨fun hx => by rw [h2.1]; exact hx, fun hx => by rw [h2.2]; exact hx⟩
    | c2pDoneWrite werr =>
        obtain ⟨-, hcases⟩ := on_c2p_done_write_spec _ _ _ _ h
        rcases hcases with ⟨-, hs', -⟩ | ⟨d, rest, -, hpair⟩
        · subst hs'
          exact ⟨fun hx => hx, fun hx => hx⟩
        · have h2 := c2p_io_write_readings _ _ _ _ _ hpair
          exact ⟨fun hx => by rw [h2.1]; exact hx, fun hx => by rw [h2.2]; exact hx⟩
    | p2sDoneWrite werr =>
        obtain ⟨-, hcases⟩ := on_p2s_done_write_spec _ _ _ _ h
        rcases hcases with ⟨-, hs', -⟩ | ⟨d, rest, -, hpair⟩
        · subst hs'
          exact ⟨fun hx => hx, fun hx => hx⟩
        · have h2 := p2s_io_write_readings _ _ _ _ _ hpair
          exact ⟨fun hx => by rw [h2.1]; exact hx, fun hx => by rw [h2.2]; exact hx⟩
    | p2sDoneConnect rerr werr =>
        obtain ⟨-, hrd, -, s2, tr1, hs2cases, hrest⟩ :=
          on_p2s_done_connect_spec _ _ _ _ _ h
        have hc2 : s2.c2p_reading = s.c2p_reading := by
          rcases hs2cases with ⟨-, hs2, -⟩ | ⟨-, hs2, -⟩ <;> rw [hs2]
        have hc : s'.c2p_reading = s.c2p_reading := by
          rcases hrest with ⟨-, hs', -⟩ | ⟨d, rest, -, tr2, hsw, -⟩
          · rw [hs', hc2]
          · have h3 := (p2s_start_write_readings _ _ _ _ _ hsw).1
            rw [h3]
            exact hc2
        refine ⟨fun hx => by rw [hc]; exact hx, fun hx => ?_⟩
        rw [hrd] at hx
        cases hx
    | c2pClose werr =>
        rcases on_c2p_close_spec _ _ _ _ h with ⟨-, hs', -⟩ | ⟨-, hsw⟩
        · subst hs'
          exact ⟨fun hx => hx, fun hx => hx⟩
        · have h2 := p2s_start_write_readings _ _ _ _ _ hsw
          exact ⟨fun hx => by rw [h2.1]; exact hx, fun hx => by rw [h2.2]; exact hx⟩
    | p2sClose werr =>
        rcases on_p2s_close_spec _ _ _ _ h with ⟨-, hs', -⟩ | ⟨-, hsw⟩
        · subst hs'
          exact ⟨fun hx => hx, fun hx => hx⟩
        · have h2 := c2p_start_write_readings _ _ _ _ _ hsw
          exact ⟨fun hx => by rw [h2.1]; exact hx, fun hx => by rw [h2.2]; exact hx⟩

/-- Witness for C10: a second `c2p_start_read` on the freshly constructed
session (already reading from the client) fails its assertion. -/
theorem c10_read_initiated_once_witness :
    Session.c2p_start_read sessionInitState false = none :=
  c10_read_initiated_once.1 sessionInitState false rfl



/-- Lemma: `p2sWrites` distributes over trace concatenation. -/
theorem p2sWrites_append (a b : List Act) :
    p2sWrites (a ++ b) = p2sWrites a ++ p2sWrites b := by
  unfold p2sWrites
  exact List.filterMap_append a b _

/-- A client chunk delivery preserves the C→S data-flow invariant and
extends the pending sequence by the chunk. -/
theorem c1_step_read (s : SessionState) (pending : List Chunk) (data : Chunk)
    (s' : SessionState) (tr : List Act)
    (hI : C1Inv s pending)
    (h : Session.on_c2p_done_read s data false = some (s', tr)) :
    ∃ pending', C1Inv s' pending' ∧
      p2sWrites tr ++ pending' = pending ++ [data] := by
  obtain ⟨hq, hnc, hcw, hcd⟩ := hI
  obtain ⟨-, -, hsw⟩ := on_c2p_done_read_spec _ _ _ _ _ h
  rcases p2s_start_write_spec _ _ _ _ _ hsw with
    ⟨hst, hs', htr⟩ | ⟨hst, -, -⟩ | ⟨hst, hw, hpair⟩ | ⟨hst, hw, hs', htr⟩
  · -- P2S CONNECTING: the chunk is appended to the queue
    subst hs' htr
    refine ⟨pending ++ [data], ⟨?_, ?_, ?_, ?_⟩, by simp [p2sWrites]⟩
    · simp only [SessionState.mk.injEq]
      simp [hq]
    · simpa using hnc
    · intro h1
      simpa using hcw (by simpa using h1)
    · intro h1 h2
      have h1' : s.p2s_state = ConnState.CONNECTED := by simpa using h1
      rw [hst] at h1'
      cases h1'
  · exact absurd hst hnc
  · -- P2S CONNECTED and idle: direct low-level write; the queue was empty
    have hp : pending = [] := hcd hst hw
    subst hp
    rw [p2s_io_write_some_ok, Prod.mk.injEq] at hpair
    obtain ⟨hs', htr⟩ := hpair
    subst hs' htr
    refine ⟨[], ⟨?_, ?_, ?_, ?_⟩, by simp [p2sWrites]⟩
    · simpa using hq
    · simpa using hnc
    · intro h1
      have h1' : s.p2s_state = ConnState.CONNECTING := by simpa using h1
      rw [hst] at h1'
      cases h1'
    · intro h1 h2
      have h2' : (true : Bool) = false := by simpa using h2
      cases h2'
  · -- P2S CONNECTED and busy: the chunk is appended to the queue
    subst hs' htr
    refine ⟨pending ++ [data], ⟨?_, ?_, ?_, ?_⟩, by simp [p2sWrites]⟩
    · simp [hq]
    · simpa using hnc
    · intro h1
      have h1' : s.p2s_state = ConnState.CONNECTING := by simpa using h1
      rw [hst] at h1'
      cases h1'
    · intro h1 h2
      have h2' : s.p2s_writing = false := by simpa using h2
      rw [hw] at h2'
      cases h2'

/-- A P2S write completion pops the queue head (writing it) or clears the
writing flag, preserving the invariant and the pending sequence. -/
theorem c1_step_done_write (s : SessionState) (pending : List Chunk)
    (s' : SessionState) (tr : List Act)
    (hI : C1Inv s pending)
    (h : Session.on_p2s_done_write s false = some (s', tr)) :
    ∃ pending', C1Inv s' pending' ∧ p2sWrites tr ++ pending' = pending := by
  obtain ⟨hq, hnc, hcw, hcd⟩ := hI
  obtain ⟨hw, hcases⟩ := on_p2s_done_write_spec _ _ _ _ h
  rcases hcases with ⟨hqe, hs', htr⟩ | ⟨d, rest, hq2, hpair⟩
  · -- queue empty: clear the writing flag
    subst hs' htr
    have hp : pending = [] := by
      rw [hqe] at hq
      exact List.map_eq_nil_iff.mp hq.symm
    subst hp
    refine ⟨[], ⟨?_, ?_, ?_, ?_⟩, by simp [p2sWrites]⟩
    · simpa using hq
    · simpa using hnc
    · intro _
      simp
    · intro _ _
      rfl
  · -- queue head d :: rest: low-level write of d
    rcases pending with _ | ⟨dc, prest⟩
    · rw [hq2] at hq
      cases hq
    · rw [hq2] at hq
      injection hq with hd hrest
      subst hd
      rw [p2s_io_write_some_ok, Prod.mk.injEq] at hpair
      obtain ⟨hs', htr⟩ := hpair
      subst hs' htr
      refine ⟨prest, ⟨?_, ?_, ?_, ?_⟩, by simp [p2sWrites]⟩
      · simpa using hrest
      · simpa using hnc
      · intro h1
        have h1' : s.p2s_state = ConnState.CONNECTING := by simpa using h1
        rw [hcw h1'] at hw
        cases hw
      · intro h1 h2
        have h2' : (true : Bool) = false := by simpa using h2
        cases h2'

/-- The connect completion turns CONNECTING into CONNECTED, starts the
upstream read, and drains the queue head through `p2s_start_write`,
preserving the invariant and the pending sequence. -/
theorem c1_step_connect (s : SessionState) (pending : List Chunk)
    (s' : SessionState) (tr : List Act)
    (hI : C1Inv s pending)
    (h : Session.on_p2s_done_connect s false false = some (s', tr)) :
    ∃ pending', C1Inv s' pending' ∧ p2sWrites tr ++ pending' = pending := by
  obtain ⟨hq, hnc, hcw, hcd⟩ := hI
  obtain ⟨hst, hrd, hwf, s2, tr1, hs2cases, hrest⟩ :=
    on_p2s_done_connect_spec _ _ _ _ _ h
  rcases hs2cases with ⟨habs, -, -⟩ | ⟨-, hs2, htr1⟩
  · cases habs
  · subst hs2 htr1
    rcases hrest with ⟨hqe, hs', htr⟩ | ⟨d, rest, hq2, tr2, hsw, htr⟩
    · -- queue empty
      subst hs' htr
      have hp : pending = [] := by
        rw [hqe] at hq
        exact List.map_eq_nil_iff.mp hq.symm
      subst hp
      refine ⟨[], ⟨?_, ?_, ?_, ?_⟩, by simp [p2sWrites]⟩
      · simpa using hq
      · simp
      · intro h1
        have h1' : ConnState.CONNECTED = ConnState.CONNECTING := by simpa using h1
        cases h1'
      · intro _ _
        rfl
    · -- queue d :: rest: the head is pushed through p2s_start_write
      rcases pending with _ | ⟨dc, prest⟩
      · rw [hq2] at hq
        cases hq
      · rw [hq2] at hq
        injection hq with hd hrest2
        subst hd
        subst htr
        rcases p2s_start_write_spec _ _ _ _ _ hsw with
          ⟨habs, -, -⟩ | ⟨habs, -, -⟩ | ⟨-, -, hpair⟩ | ⟨-, habs, -, -⟩
        · have habs' : ConnState.CONNECTED = ConnState.CONNECTING := by simpa using habs
          cases habs'
        · have habs' : ConnState.CONNECTED = ConnState.CLOSED := by simpa using habs
          cases habs'
        · rw [p2s_io_write_some_ok, Prod.mk.injEq] at hpair
          obtain ⟨hs', htr2⟩ := hpair
          subst hs' htr2
          refine ⟨prest, ⟨?_, ?_, ?_, ?_⟩, by simp [p2sWrites]⟩
          · simpa using hrest2
          · simp
          · intro h1
            have h1' : ConnState.CONNECTED = ConnState.CONNECTING := by simpa using h1
            cases h1'
          · intro h1 h2
            have h2' : (true : Bool) = false := by simpa using h2
            cases h2'
        · have habs' : s.p2s_writing = true := by simpa using habs
          rw [hwf] at habs'
          cases habs'

/-- The C→S data-flow invariant carried through any error-free run of
client deliveries, P2S write completions and the connect completion. -/
theorem c1_run_inv (es : List Ev) : ∀ (s : SessionState) (pending : List Chunk)
    (s' : SessionState) (tr : List Act),
    C1Inv s pending → (∀ e ∈ es, c1ev e = true) →
    run s es = some (s', tr) →
    ∃ pending', C1Inv s' pending' ∧
      p2sWrites tr ++ pending' = pending ++ clientChunks es := by
  induction es with
  | nil =>
      intro s pending s' tr hI hall hr
      unfold run at hr
      injection hr with h5
      rw [Prod.mk.injEq] at h5
      obtain ⟨hs', htr⟩ := h5
      subst hs' htr
      exact ⟨pending, hI, by simp [p2sWrites, clientChunks]⟩
  | cons e es ih =>
      intro s pending s' tr hI hall hr
      unfold run at hr
      rcases hstep : step s e with _ | ⟨s1, tr1⟩
      · rw [hstep] at hr
        cases hr
      · rw [hstep] at hr
        dsimp only at hr
        rcases hrun : run s1 es with _ | ⟨s2, tr2⟩
        · rw [hrun] at hr
          cases hr
        · rw [hrun] at hr
          injection hr with h5
          rw [Prod.mk.injEq] at h5
          obtain ⟨hs', htr⟩ := h5
          subst hs'
          have hall1 : c1ev e = true := hall e (List.mem_cons_self e es)
          have hall2 : ∀ e' ∈ es, c1ev e' = true :=
            fun e' he' => hall e' (List.mem_cons_of_mem e he')
          cases e with
          | c2pDoneRead data werr =>
              have hwe : werr = false := by
                cases werr
                · rfl
                · simp [c1ev] at hall1
              subst hwe
              obtain ⟨p1, hI1, heq1⟩ := c1_step_read _ _ _ _ _ hI hstep
              obtain ⟨p2, hI2, heq2⟩ := ih s1 p1 s2 tr2 hI1 hall2 hrun
              refine ⟨p2, hI2, ?_⟩
              rw [← htr, p2sWrites_append, List.append_assoc, heq2,
                ← List.append_assoc, heq1]
              simp [clientChunks]
          | p2sDoneRead data werr =>
              simp [c1ev] at hall1
          | c2pDoneWrite werr =>
              simp [c1ev] at hall1
          | p2sDoneWrite werr =>
              have hwe : werr = false := by
                cases werr
                · rfl
                · simp [c1ev] at hall1
              subst hwe
              obtain ⟨p1, hI1, heq1⟩ := c1_step_done_write _ _ _ _ hI hstep
              obtain ⟨p2, hI2, heq2⟩ := ih s1 p1 s2 tr2 hI1 hall2 hrun
              refine ⟨p2, hI2, ?_⟩
              rw [← htr, p2sWrites_append, List.append_assoc, heq2,
                ← List.append_assoc, heq1]
              simp [clientChunks]
          | p2sDoneConnect rerr werr =>
              have hre : rerr = false := by
                cases rerr
                · rfl
                · simp [c1ev] at hall1
              have hwe : werr = false := by
                cases werr
                · rfl
                · simp [c1ev, hre] at hall1
              subst hre hwe
              obtain ⟨p1, hI1, heq1⟩ := c1_step_connect _ _ _ _ hI hstep
              obtain ⟨p2, hI2, heq2⟩ := ih s1 p1 s2 tr2 hI1 hall2 hrun
              refine ⟨p2, hI2, ?_⟩
              rw [← htr, p2sWrites_append, List.append_assoc, heq2,
                ← List.append_assoc, heq1]
              simp [clientChunks]
          | c2pClose werr =>
              simp [c1ev] at hall1
          | p2sClose werr =>
              simp [c1ev] at hall1

/-- C1: starting from the fresh session (P2S CONNECTING), for any
error-free run made of client chunk deliveries, P2S write completions and
the connect completion: the chunks written to the upstream stream followed
by the chunks still queued are exactly the client's chunks in arrival
order.  Chunks delivered while CONNECTING are appended to the P2S queue
and, once `on_p2s_done_connect` fires, are written in arrival order before
any later chunk; no byte is lost or reordered across the
CONNECTING→CONNECTED transition, and a run that drains the queue has
written exactly the full client sequence. -/
theorem c1_connect_window_ordering (es : List Ev)
    (hall : ∀ e ∈ es, c1ev e = true)
    (s' : SessionState) (tr : List Act)
    (h : run sessionInitState es = some (s', tr)) :
    p2sWrites tr ++ s'.c2s_queued_data.filterMap id = clientChunks es ∧
    (s'.c2s_queued_data = [] → p2sWrites tr = clientChunks es) := by
  have hI0 : C1Inv sessionInitState [] := by
    refine ⟨rfl, by decide, fun _ => rfl, fun h1 _ => ?_⟩
    cases h1
  obtain ⟨pending', hI', heq⟩ := c1_run_inv es sessionInitState [] s' tr hI0 hall h
  obtain ⟨hq, -, -, -⟩ := hI'
  have hfm : s'.c2s_queued_data.filterMap id = pending' := by
    rw [hq, List.filterMap_map]
    simpa using List.filterMap_some pending'
  constructor
  · rw [hfm]
    simpa using heq
  · intro hempty
    rw [hempty] at hq
    have hp : pending' = [] := List.map_eq_nil_iff.mp hq.symm
    subst hp
    simpa using heq

/-- Witness for C1: two chunks sent during the connect window and one
after; the upstream receives `[1],[2],[3]` in order. -/
theorem c1_connect_window_ordering_witness :
    p2sWrites c1Tr ++ c1Final.c2s_queued_data.filterMap id = clientChunks c1Es :=
  (c1_connect_window_ordering c1Es (by decide) c1Final c1Tr (by decide)).1



/-- Forwarding a chunk to the server preserves the close/removal
invariant (no sentinel is created, no state is closed, nothing removed). -/
theorem seeninv_p2s_start_write_some (s : SessionState) (dd : Chunk) (e : Bool)
    (s' : SessionState) (tr : List Act) (c p : Bool)
    (hI : SeenInv s c p)
    (h : Session.p2s_start_write s (some dd) e = some (s', tr)) :
    SeenInv s' c p := by
  obtain ⟨h1, h2, h3, h4, h5, h6, h7⟩ := hI
  rcases p2s_start_write_spec _ _ _ _ _ h with
    ⟨hst, hs', -⟩ | ⟨hst, hs', -⟩ | ⟨hst, hw, hpair⟩ | ⟨hst, hw, hs', -⟩
  · subst hs'
    refine ⟨h1, h2, h3, h4, h5, h6, fun hmem => h7 ?_⟩
    simpa using hmem
  · subst hs'
    exact ⟨h1, h2, h3, h4, h5, h6, h7⟩
  · cases e
    · rw [p2s_io_write_some_ok, Prod.mk.injEq] at hpair
      obtain ⟨hs', -⟩ := hpair
      subst hs'
      exact ⟨h1, h2, h3, h4, h5, h6, h7⟩
    · rw [p2s_io_write_some_err, Prod.mk.injEq] at hpair
      obtain ⟨hs', -⟩ := hpair
      subst hs'
      exact ⟨h1, h2, h3, h4, h5, h6, h7⟩
  · subst hs'
    refine ⟨h1, h2, h3, h4, h5, h6, fun hmem => h7 ?_⟩
    simpa using hmem

/-- Forwarding a chunk to the client preserves the close/removal
invariant. -/
theorem seeninv_c2p_start_write_some (s : SessionState) (dd : Chunk) (e : Bool)
    (s' : SessionState) (tr : List Act) (c p : Bool)
    (hI : SeenInv s c p)
    (h : Session.c2p_start_write s (some dd) e = some (s', tr)) :
    SeenInv s' c p := by
  obtain ⟨h1, h2, h3, h4, h5, h6, h7⟩ := hI
  rcases c2p_start_write_spec _ _ _ _ _ h with
    ⟨hst, hs', -⟩ | ⟨hst, hw, hq, hpair⟩ | ⟨hst, hw, hs', -⟩
  · subst hs'
    exact ⟨h1, h2, h3, h4, h5, h6, h7⟩
  · cases e
    · rw [c2p_io_write_some_ok, Prod.mk.injEq] at hpair
      obtain ⟨hs', -⟩ := hpair
      subst hs'
      exact ⟨h1, h2, h3, h4, h5, h6, h7⟩
    · rw [c2p_io_write_some_err, Prod.mk.injEq] at hpair
      obtain ⟨hs', -⟩ := hpair
      subst hs'
      exact ⟨h1, h2, h3, h4, h5, h6, h7⟩
  · subst hs'
    refine ⟨h1, h2, h3, h4, h5, fun hmem => h6 ?_, h7⟩
    simpa using hmem

/-- A client-side write completion preserves the close/removal invariant:
a dequeued sentinel closes C2P, which is justified because a sentinel in
the S→C queue implies the P2S close callback has already fired. -/
theorem seeninv_on_c2p_done_write (s : SessionState) (e : Bool) (c p : Bool)
    (s' : SessionState) (tr : List Act)
    (hI : SeenInv s c p)
    (h : Session.on_c2p_done_write s e = some (s', tr)) :
    SeenInv s' c p := by
  obtain ⟨h1, h2, h3, h4, h5, h6, h7⟩ := hI
  obtain ⟨-, hcases⟩ := on_c2p_done_write_spec _ _ _ _ h
  rcases hcases with ⟨-, hs', -⟩ | ⟨d, rest, hq, hpair⟩
  · subst hs'
    exact ⟨h1, h2, h3, h4, h5, h6, h7⟩
  · have h6' : none ∈ rest → p = true := fun hm => h6 (by rw [hq]; exact List.mem_cons_of_mem _ hm)
    rcases d with _ | dc
    · have hp : p = true := h6 (by rw [hq]; exact List.mem_cons_self _ _)
      cases e
      · rw [c2p_io_write_none_ok, Prod.mk.injEq] at hpair
        obtain ⟨hs', -⟩ := hpair
        subst hs'
        exact ⟨h1, fun _ => rfl, h3, fun _ => Or.inr hp, h5, h6', h7⟩
      · rw [c2p_io_write_none_err, Prod.mk.injEq] at hpair
        obtain ⟨hs', -⟩ := hpair
        subst hs'
        exact ⟨h1, fun _ => rfl, h3, fun _ => Or.inr hp, h5, h6', h7⟩
    · cases e
      · rw [c2p_io_write_some_ok, Prod.mk.injEq] at hpair
        obtain ⟨hs', -⟩ := hpair
        subst hs'
        exact ⟨h1, h2, h3, h4, h5, h6', h7⟩
      · rw [c2p_io_write_some_err, Prod.mk.injEq] at hpair
        obtain ⟨hs', -⟩ := hpair
        subst hs'
        exact ⟨h1, h2, h3, h4, h5, h6', h7⟩

/-- A server-side write completion preserves the close/removal invariant:
a dequeued sentinel closes P2S, justified because a sentinel in the C→S
queue implies the C2P close callback has already fired. -/
theorem seeninv_on_p2s_done_write (s : SessionState) (e : Bool) (c p : Bool)
    (s' : SessionState) (tr : List Act)
    (hI : SeenInv s c p)
    (h : Session.on_p2s_done_write s e = some (s', tr)) :
    SeenInv s' c p := by
  obtain ⟨h1, h2, h3, h4, h5, h6, h7⟩ := hI
  obtain ⟨-, hcases⟩ := on_p2s_done_write_spec _ _ _ _ h
  rcases hcases with ⟨-, hs', -⟩ | ⟨d, rest, hq, hpair⟩
  · subst hs'
    exact ⟨h1, h2, h3, h4, h5, h6, h7⟩
  · have h7' : none ∈ rest → c = true := fun hm => h7 (by rw [hq]; exact List.mem_cons_of_mem _ hm)
    rcases d with _ | dc
    · have hc : c = true := h7 (by rw [hq]; exact List.mem_cons_self _ _)
      cases e
      · rw [p2s_io_write_none_ok, Prod.mk.injEq] at hpair
        obtain ⟨hs', -⟩ := hpair
        subst hs'
        exact ⟨h1, h2, fun _ => rfl, h4, fun _ => Or.inl hc, h6, h7'⟩
      · rw [p2s_io_write_none_err, Prod.mk.injEq] at hpair
        obtain ⟨hs', -⟩ := hpair
        subst hs'
        exact ⟨h1, h2, fun _ => rfl, h4, fun _ => Or.inl hc, h6, h7'⟩
    · cases e
      · rw [p2s_io_write_some_ok, Prod.mk.injEq] at hpair
        obtain ⟨hs', -⟩ := hpair
        subst hs'
        exact ⟨h1, h2, h3, h4, h5, h6, h7'⟩
      · rw [p2s_io_write_some_err, Prod.mk.injEq] at hpair
        obtain ⟨hs', -⟩ := hpair
        subst hs'
        exact ⟨h1, h2, h3, h4, h5, h6, h7'⟩

/-- The connect completion preserves the close/removal invariant.  It can
close P2S only by draining a sentinel out of the C→S queue, which implies
the C2P close callback already fired. -/
theorem seeninv_on_p2s_done_connect (s : SessionState) (rerr werr : Bool) (c p : Bool)
    (s' : SessionState) (tr : List Act)
    (hI : SeenInv s c p)
    (h : Session.on_p2s_done_connect s rerr werr = some (s', tr)) :
    SeenInv s' c p := by
  obtain ⟨h1, h2, h3, h4, h5, h6, h7⟩ := hI
  obtain ⟨hst, -, hwf, s2, tr1, hs2cases, hrest⟩ := on_p2s_done_connect_spec _ _ _ _ _ h
  have hpF : p = false := by
    cases hp : p
    · rfl
    · rw [h3 hp] at hst
      cases hst
  subst hpF
  have hrm : s.removed = 0 := by simpa using h1
  have hf1 : s2.c2p_state = s.c2p_state := by
    rcases hs2cases with ⟨-, hs2, -⟩ | ⟨-, hs2, -⟩ <;> rw [hs2]
  have hf2 : s2.p2s_state = ConnState.CONNECTED := by
    rcases hs2cases with ⟨-, hs2, -⟩ | ⟨-, hs2, -⟩ <;> rw [hs2]
  have hf3 : s2.c2s_queued_data = s.c2s_queued_data := by
    rcases hs2cases with ⟨-, hs2, -⟩ | ⟨-, hs2, -⟩ <;> rw [hs2]
  have hf4 : s2.s2c_queued_data = s.s2c_queued_data := by
    rcases hs2cases with ⟨-, hs2, -⟩ | ⟨-, hs2, -⟩ <;> rw [hs2]
  have hf5 : s2.removed = s.removed := by
    rcases hs2cases with ⟨-, hs2, -⟩ | ⟨-, hs2, -⟩ <;> rw [hs2]
  rcases hrest with ⟨-, hs', -⟩ | ⟨d, rest, hq2, tr2, hsw, -⟩
  · subst hs'
    refine ⟨?_, ?_, ?_, ?_, ?_, ?_, ?_⟩
    · simp [hf5, hrm]
    · intro hc
      rw [hf1]
      exact h2 hc
    · intro hp
      cases hp
    · intro hcl
      rw [hf1] at hcl
      exact h4 hcl
    · intro hcl
      rw [hf2] at hcl
      cases hcl
    · intro hm
      rw [hf4] at hm
      exact h6 hm
    · intro hm
      rw [hf3] at hm
      exact h7 hm
  · have h7' : none ∈ rest → c = true :=
      fun hm => h7 (by rw [hq2]; exact List.mem_cons_of_mem _ hm)
    rcases p2s_start_write_spec _ _ _ _ _ hsw with
      ⟨habs, -, -⟩ | ⟨habs, -, -⟩ | ⟨-, -, hpair⟩ | ⟨-, habs, -, -⟩
    · have hx : ConnState.CONNECTED = ConnState.CONNECTING := by
        rw [← hf2]
        exact habs
      cases hx
    · have hx : ConnState.CONNECTED = ConnState.CLOSED := by
        rw [← hf2]
        exact habs
      cases hx
    · have hs' : s' = (Session.p2s_io_write { s2 with c2s_queued_data := rest } d werr).1 := by
        rw [← hpair]
      rcases d with _ | dc
      · have hc : c = true := h7 (by rw [hq2]; exact List.mem_cons_self _ _)
        cases werr
        · rw [p2s_io_write_none_ok] at hs'
          subst hs'
          refine ⟨?_, ?_, ?_, ?_, ?_, ?_, ?_⟩
          · simp [hf5, hrm]
          · intro hcc
            show s2.c2p_state = ConnState.CLOSED
            rw [hf1]
            exact h2 hcc
          · intro _
            rfl
          · intro hcl
            have hx : s2.c2p_state = ConnState.CLOSED := hcl
            rw [hf1] at hx
            exact h4 hx
          · intro _
            exact Or.inl hc
          · intro hm
            have hx : none ∈ s2.s2c_queued_data := hm
            rw [hf4] at hx
            exact h6 hx
          · intro hm
            exact h7' hm
        · rw [p2s_io_write_none_err] at hs'
          subst hs'
          refine ⟨?_, ?_, ?_, ?_, ?_, ?_, ?_⟩
          · simp [hf5, hrm]
          · intro hcc
            show s2.c2p_state = ConnState.CLOSED
            rw [hf1]
            exact h2 hcc
          · intro _
            rfl
          · intro hcl
            have hx : s2.c2p_state = ConnState.CLOSED := hcl
            rw [hf1] at hx
            exact h4 hx
          · intro _
            exact Or.inl hc
          · intro hm
            have hx : none ∈ s2.s2c_queued_data := hm
            rw [hf4] at hx
            exact h6 hx
          · intro hm
            exact h7' hm
      · cases werr
        · rw [p2s_io_write_some_ok] at hs'
          subst hs'
          refine ⟨?_, ?_, ?_, ?_, ?_, ?_, ?_⟩
          · simp [hf5, hrm]
          · intro hcc
            show s2.c2p_state = ConnState.CLOSED
            rw [hf1]
            exact h2 hcc
          · intro hp
            cases hp
          · intro hcl
            have hx : s2.c2p_state = ConnState.CLOSED := hcl
            rw [hf1] at hx
            exact h4 hx
          · intro hcl
            have hx : s2.p2s_state = ConnState.CLOSED := hcl
            rw [hf2] at hx
            cases hx
          · intro hm
            have hx : none ∈ s2.s2c_queued_data := hm
            rw [hf4] at hx
            exact h6 hx
          · intro hm
            exact h7' hm
        · rw [p2s_io_write_some_err] at hs'
          subst hs'
          refine ⟨?_, ?_, ?_, ?_, ?_, ?_, ?_⟩
          · simp [hf5, hrm]
          · intro hcc
            show s2.c2p_state = ConnState.CLOSED
            rw [hf1]
            exact h2 hcc
          · intro hp
            cases hp
          · intro hcl
            have hx : s2.c2p_state = ConnState.CLOSED := hcl
            rw [hf1] at hx
            exact h4 hx
          · intro hcl
            have hx : s2.p2s_state = ConnState.CLOSED := hcl
            rw [hf2] at hx
            cases hx
          · intro hm
            have hx : none ∈ s2.s2c_queued_data := hm
            rw [hf4] at hx
            exact h6 hx
          · intro hm
            exact h7' hm
    · have hx : s2.p2s_writing = true := by simpa using habs
      have hx2 : s2.p2s_writing = s.p2s_writing := by
        rcases hs2cases with ⟨-, hs2, -⟩ | ⟨-, hs2, -⟩ <;> rw [hs2]
      rw [hx2, hwf] at hx
      cases hx

/-- The C2P close callback, firing for the first time: mark C2P CLOSED,
then either remove the session (P2S already CLOSED, so the P2S close
callback fired earlier: the counter goes 0 → 1) or propagate a graceful
close to P2S. -/
theorem seeninv_on_c2p_close (s : SessionState) (e : Bool) (p : Bool)
    (s' : SessionState) (tr : List Act)
    (hI : SeenInv s false p)
    (h : Session.on_c2p_close s e = some (s', tr)) :
    SeenInv s' true p := by
  obtain ⟨h1, h2, h3, h4, h5, h6, h7⟩ := hI
  rcases on_c2p_close_spec _ _ _ _ h with ⟨hcl, hs', -⟩ | ⟨hncl, hsw⟩
  · have hp : p = true := by
      rcases h5 hcl with hc | hp
      · cases hc
      · exact hp
    subst hp
    subst hs'
    have hrm : s.removed = 0 := by simpa using h1
    refine ⟨?_, ?_, ?_, ?_, ?_, ?_, ?_⟩
    · show s.removed + 1 = if true && true then 1 else 0
      rw [hrm]
      rfl
    · intro _
      rfl
    · intro _
      exact hcl
    · intro _
      exact Or.inl rfl
    · intro _
      exact Or.inl rfl
    · intro hm
      exact h6 hm
    · intro _
      rfl
  · have hpF : p = false := by
      cases hp : p
      · rfl
      · exact absurd (h3 hp) hncl
    subst hpF
    have hrm : s.removed = 0 := by simpa using h1
    rcases p2s_start_write_spec _ _ _ _ _ hsw with
      ⟨hst, hs', -⟩ | ⟨hst, -, -⟩ | ⟨hst, hw, hpair⟩ | ⟨hst, hw, hs', -⟩
    · subst hs'
      refine ⟨?_, ?_, ?_, ?_, ?_, ?_, ?_⟩
      · show s.removed = if true && false then 1 else 0
        rw [hrm]
        rfl
      · intro _
        rfl
      · intro hp
        cases hp
      · intro _
        exact Or.inl rfl
      · intro hcl
        exact absurd (show s.p2s_state = ConnState.CLOSED from hcl) hncl
      · intro hm
        exact h6 hm
      · intro _
        rfl
    · exact absurd (show s.p2s_state = ConnState.CLOSED from hst) hncl
    · have hs' : s' = (Session.p2s_io_write { s with c2p_state := ConnState.CLOSED } none e).1 := by
        rw [← hpair]
      cases e
      · rw [p2s_io_write_none_ok] at hs'
        subst hs'
        refine ⟨?_, ?_, ?_, ?_, ?_, ?_, ?_⟩
        · show s.removed = if true && false then 1 else 0
          rw [hrm]
          rfl
        · intro _
          rfl
        · intro _
          rfl
        · intro _
          exact Or.inl rfl
        · intro _
          exact Or.inl rfl
        · intro hm
          exact h6 hm
        · intro _
          rfl
      · rw [p2s_io_write_none_err] at hs'
        subst hs'
        refine ⟨?_, ?_, ?_, ?_, ?_, ?_, ?_⟩
        · show s.removed = if true && false then 1 else 0
          rw [hrm]
          rfl
        · intro _
          rfl
        · intro _
          rfl
        · intro _
          exact Or.inl rfl
        · intro _
          exact Or.inl rfl
        · intro hm
          exact h6 hm
        · intro _
          rfl
    · subst hs'
      refine ⟨?_, ?_, ?_, ?_, ?_, ?_, ?_⟩
      · show s.removed = if true && false then 1 else 0
        rw [hrm]
        rfl
      · intro _
        rfl
      · intro hp
        cases hp
      · intro _
        exact Or.inl rfl
      · intro hcl
        exact absurd (show s.p2s_state = ConnState.CLOSED from hcl) hncl
      · intro hm
        exact h6 hm
      · intro _
        rfl

/-- The P2S close callback, firing for the first time (symmetric to
`seeninv_on_c2p_close`). -/
theorem seeninv_on_p2s_close (s : SessionState) (e : Bool) (c : Bool)
    (s' : SessionState) (tr : List Act)
    (hI : SeenInv s c false)
    (h : Session.on_p2s_close s e = some (s', tr)) :
    SeenInv s' c true := by
  obtain ⟨h1, h2, h3, h4, h5, h6, h7⟩ := hI
  rcases on_p2s_close_spec _ _ _ _ h with ⟨hcl, hs', -⟩ | ⟨hncl, hsw⟩
  · have hc : c = true := by
      rcases h4 hcl with hc | hp
      · exact hc
      · cases hp
    subst hc
    subst hs'
    have hrm : s.removed = 0 := by simpa using h1
    refine ⟨?_, ?_, ?_, ?_, ?_, ?_, ?_⟩
    · show s.removed + 1 = if true && true then 1 else 0
      rw [hrm]
      rfl
    · intro _
      exact hcl
    · intro _
      rfl
    · intro _
      exact Or.inl rfl
    · intro _
      exact Or.inl rfl
    · intro _
      rfl
    · intro _
      rfl
  · have hcF : c = false := by
      cases hc : c
      · rfl
      · exact absurd (h2 hc) hncl
    subst hcF
    have hrm : s.removed = 0 := by simpa using h1
    rcases c2p_start_write_spec _ _ _ _ _ hsw with
      ⟨hne, hs', -⟩ | ⟨hst, hw, hq, hpair⟩ | ⟨hst, hw, hs', -⟩
    · subst hs'
      refine ⟨?_, ?_, ?_, ?_, ?_, ?_, ?_⟩
      · show s.removed = if false && true then 1 else 0
        rw [hrm]
        rfl
      · intro hc
        cases hc
      · intro _
        rfl
      · intro hcl
        exact absurd (show s.c2p_state = ConnState.CLOSED from hcl) hncl
      · intro _
        exact Or.inr rfl
      · intro _
        rfl
      · intro hm
        exact h7 hm
    · have hs' : s' = (Session.c2p_io_write { s with p2s_state := ConnState.CLOSED } none e).1 := by
        rw [← hpair]
      cases e
      · rw [c2p_io_write_none_ok] at hs'
        subst hs'
        refine ⟨?_, ?_, ?_, ?_, ?_, ?_, ?_⟩
        · show s.removed = if false && true then 1 else 0
          rw [hrm]
          rfl
        · intro _
          rfl
        · intro _
          rfl
        · intro _
          exact Or.inr rfl
        · intro _
          exact Or.inr rfl
        · intro _
          rfl
        · intro hm
          exact h7 hm
      · rw [c2p_io_write_none_err] at hs'
        subst hs'
        refine ⟨?_, ?_, ?_, ?_, ?_, ?_, ?_⟩
        · show s.removed = if false && true then 1 else 0
          rw [hrm]
          rfl
        · intro _
          rfl
        · intro _
          rfl
        · intro _
          exact Or.inr rfl
        · intro _
          exact Or.inr rfl
        · intro _
          rfl
        · intro hm
          exact h7 hm
    · subst hs'
      refine ⟨?_, ?_, ?_, ?_, ?_, ?_, ?_⟩
      · show s.removed = if false && true then 1 else 0
        rw [hrm]
        rfl
      · intro hc
        cases hc
      · intro _
        rfl
      · intro hcl
        exact absurd (show s.c2p_state = ConnState.CLOSED from hcl) hncl
      · intro _
        exact Or.inr rfl
      · intro _
        rfl
      · intro hm
        exact h7 hm



/-- The close/removal invariant carried through any run: the seen-flags
absorb the close callbacks occurring in the event list, provided each
close callback fires at most once in the whole execution. -/
theorem c4_run_inv (es : List Ev) : ∀ (s : SessionState) (c p : Bool)
    (s' : SessionState) (tr : List Act),
    SeenInv s c p →
    es.countP isC2pClose + (if c then 1 else 0) ≤ 1 →
    es.countP isP2sClose + (if p then 1 else 0) ≤ 1 →
    run s es = some (s', tr) →
    SeenInv s' (c || es.any isC2pClose) (p || es.any isP2sClose) := by
  induction es with
  | nil =>
      intro s c p s' tr hI hc hp hr
      unfold run at hr
      injection hr with h5
      rw [Prod.mk.injEq] at h5
      obtain ⟨hs', -⟩ := h5
      subst hs'
      simpa using hI
  | cons e es ih =>
      intro s c p s' tr hI hc hp hr
      unfold run at hr
      rcases hstep : step s e with _ | ⟨s1, tr1⟩
      · rw [hstep] at hr
        cases hr
      · rw [hstep] at hr
        dsimp only at hr
        rcases hrun : run s1 es with _ | ⟨s2, tr2⟩
        · rw [hrun] at hr
          cases hr
        · rw [hrun] at hr
          injection hr with h5
          rw [Prod.mk.injEq] at h5
          obtain ⟨hs', -⟩ := h5
          subst hs'
          cases e with
          | c2pDoneRead data werr =>
              obtain ⟨-, -, hsw⟩ := on_c2p_done_read_spec _ _ _ _ _ hstep
              have hI1 : SeenInv s1 c p := seeninv_p2s_start_write_some _ _ _ _ _ _ _ hI hsw
              have := ih s1 c p s2 tr2 hI1 (by simpa [List.countP_cons, isC2pClose] using hc)
                (by simpa [List.countP_cons, isP2sClose] using hp) hrun
              simpa [List.any_cons, isC2pClose, isP2sClose] using this
          | p2sDoneRead data werr =>
              obtain ⟨-, -, hsw⟩ := on_p2s_done_read_spec _ _ _ _ _ hstep
              have hI1 : SeenInv s1 c p := seeninv_c2p_start_write_some _ _ _ _ _ _ _ hI hsw
              have := ih s1 c p s2 tr2 hI1 (by simpa [List.countP_cons, isC2pClose] using hc)
                (by simpa [List.countP_cons, isP2sClose] using hp) hrun
              simpa [List.any_cons, isC2pClose, isP2sClose] using this
          | c2pDoneWrite werr =>
              have hI1 : SeenInv s1 c p := seeninv_on_c2p_done_write _ _ _ _ _ _ hI hstep
              have := ih s1 c p s2 tr2 hI1 (by simpa [List.countP_cons, isC2pClose] using hc)
                (by simpa [List.countP_cons, isP2sClose] using hp) hrun
              simpa [List.any_cons, isC2pClose, isP2sClose] using this
          | p2sDoneWrite werr =>
              have hI1 : SeenInv s1 c p := seeninv_on_p2s_done_write _ _ _ _ _ _ hI hstep
              have := ih s1 c p s2 tr2 hI1 (by simpa [List.countP_cons, isC2pClose] using hc)
                (by simpa [List.countP_cons, isP2sClose] using hp) hrun
              simpa [List.any_cons, isC2pClose, isP2sClose] using this
          | p2sDoneConnect rerr werr =>
              have hI1 : SeenInv s1 c p := seeninv_on_p2s_done_connect _ _ _ _ _ _ _ hI hstep
              have := ih s1 c p s2 tr2 hI1 (by simpa [List.countP_cons, isC2pClose] using hc)
                (by simpa [List.countP_cons, isP2sClose] using hp) hrun
              simpa [List.any_cons, isC2pClose, isP2sClose] using this
          | c2pClose werr =>
              have h0 : es.countP isC2pClose + 1 + (if c then 1 else 0) ≤ 1 := by
                simpa [List.countP_cons, isC2pClose] using hc
              have hcF : c = false := by
                cases hcb : c
                · rfl
                · exfalso
                  rw [hcb] at h0
                  simp at h0
              subst hcF
              have h00 : es.countP isC2pClose = 0 := by
                have h0x : es.countP isC2pClose + 1 ≤ 1 := by simpa using h0
                omega
              have hI1 : SeenInv s1 true p := seeninv_on_c2p_close _ _ _ _ _ hI hstep
              have := ih s1 true p s2 tr2 hI1 (by simp [h00])
                (by simpa [List.countP_cons, isP2sClose] using hp) hrun
              simpa [List.any_cons, isC2pClose, isP2sClose] using this
          | p2sClose werr =>
              have h0 : es.countP isP2sClose + 1 + (if p then 1 else 0) ≤ 1 := by
                simpa [List.countP_cons, isP2sClose] using hp
              have hpF : p = false := by
                cases hpb : p
                · rfl
                · exfalso
                  rw [hpb] at h0
                  simp at h0
              subst hpF
              have h00 : es.countP isP2sClose = 0 := by
                have h0x : es.countP isP2sClose + 1 ≤ 1 := by simpa using h0
                omega
              have hI1 : SeenInv s1 c true := seeninv_on_p2s_close _ _ _ _ _ hI hstep
              have := ih s1 c true s2 tr2 hI1
                (by simpa [List.countP_cons, isC2pClose] using hc) (by simp [h00]) hrun
              simpa [List.any_cons, isC2pClose, isP2sClose] using this

/-- C4: in every run from the fresh session in which each of the two close
callbacks fires exactly once (and no assertion fails), `remove_session`
runs exactly once — performed by whichever close callback runs later,
which observes the other endpoint already CLOSED (the model's
`Session.remove_session` asserts both endpoints CLOSED, so the successful
run certifies that precondition).  On the listener side,
`ProxyServer.remove_session` accepts a session iff both endpoint states
are CLOSED, and removes it from the session list exactly once. -/
theorem c4_remove_session_exactly_once (es : List Ev)
    (hc : es.countP isC2pClose = 1) (hp : es.countP isP2sClose = 1)
    (s' : SessionState) (tr : List Act)
    (h : run sessionInitState es = some (s', tr)) :
    s'.removed = 1 ∧
    (∀ (l : List ℕ) (sid : ℕ) (c2p p2s : ConnState),
        (ProxyServer.remove_session_list l sid c2p p2s).isSome = true ↔
          (p2s = ConnState.CLOSED ∧ c2p = ConnState.CLOSED)) ∧
    (∀ (l : List ℕ) (sid : ℕ), List.count sid l = 1 →
        ProxyServer.remove_session_list l sid ConnState.CLOSED ConnState.CLOSED =
          some (l.erase sid) ∧ List.count sid (l.erase sid) = 0) := by
  refine ⟨?_, ?_, ?_⟩
  · have hI0 : SeenInv sessionInitState false false := by
      refine ⟨rfl, ?_, ?_, ?_, ?_, ?_, ?_⟩ <;> intro hx <;>
        first
          | cases hx
          | simp [sessionInitState] at hx
    have hfin := c4_run_inv es sessionInitState false false s' tr hI0
      (by simp [hc]) (by simp [hp]) h
    have hany1 : es.any isC2pClose = true := by
      have hpos : 0 < es.countP isC2pClose := by
        rw [hc]
        norm_num
      rw [List.any_eq_true]
      simpa using List.countP_pos.mp hpos
    have hany2 : es.any isP2sClose = true := by
      have hpos : 0 < es.countP isP2sClose := by
        rw [hp]
        norm_num
      rw [List.any_eq_true]
      simpa using List.countP_pos.mp hpos
    rw [hany1, hany2] at hfin
    have h1 := hfin.1
    simpa using h1
  · intro l sid c2p p2s
    unfold ProxyServer.remove_session_list
    split_ifs with hcond
    · simpa using hcond
    · simpa using hcond
  · intro l sid hcount
    constructor
    · unfold ProxyServer.remove_session_list
      simp
    · rw [List.count_erase_self, hcount]

/-- Witness for C4: the dial fails (P2S closes first), then the client
close callback fires and is the sole remover. -/
theorem c4_remove_session_exactly_once_witness :
    c4Final.removed = 1 :=
  (c4_remove_session_exactly_once c4Es (by decide) (by decide) c4Final
    [Act.c2pCloseStream] (by decide)).1


end Maproxy
